import Mathlib

/-!
Shallow embedding of the drone-delivery backend (TypeScript / Prisma) and
verification of its specification.

The embedding translates the service and repository layer:
* `src/services/order.service.ts`  (OrderService)
* `src/services/job.service.ts`    (JobService, `unnamed/part_008`)
* `src/services/drone.service.ts`  (DroneService, `unnamed/part_009`)
* `src/repositories/job.repository.ts`, `order.repository.ts`,
  `drone.repository.ts`
* `src/utils/location.util.ts`

Conventions:
* Coordinates are rationals (`Rat`); the floating-point great-circle / ETA
  arithmetic is out of scope per the spec ("specified only as an interface"),
  so an ETA value is embedded as an opaque record of the arguments that were
  passed to `calculateETAFromLocation`.
* Each `prisma.$transaction` block is one atomic step: it either produces the
  fully updated state or leaves the state unchanged.  Separate prisma calls
  outside a transaction commit separately, so a service operation that throws
  between calls leaves the partially updated state behind: operations return
  `Except (Err × St) (α × St)`, the error case carrying the state as committed
  up to the throw.
* Entity ids and timestamps are `Nat`.
-/

namespace DroneDelivery

/-- Order (Request) status, from the Prisma `OrderStatus` enum. -/
inductive OrderStatus where
  | PENDING | ASSIGNED | IN_TRANSIT | DELIVERED | FAILED | WITHDRAWN
  deriving DecidableEq, Repr

/-- Drone (Agent) status, from the Prisma `DroneStatus` enum. -/
inductive DroneStatus where
  | AVAILABLE | BUSY | BROKEN
  deriving DecidableEq, Repr

/-- Job (WorkUnit) kind, from the Prisma `JobType` enum. -/
inductive JobType where
  | DELIVERY_ORDER | HANDOFF
  deriving DecidableEq, Repr

/-- Job (WorkUnit) status, from the Prisma `JobStatus` enum. -/
inductive JobStatus where
  | PENDING | RESERVED | COMPLETED
  deriving DecidableEq, Repr

/-- An ETA value: `location.util.ts` computes `now + distance/speed` in
floating point; per the spec this arithmetic is only an interface, so the
embedding records the arguments (start point, destination, speed). -/
inductive Eta where
  | fromTo (startLat startLng destLat destLng speed : Rat)
  deriving DecidableEq, Repr

/-- `calculateETAFromLocation` of `location.util.ts`, at interface level. -/
def calculateETAFromLocation (curLat curLng destLat destLng speed : Rat) : Eta :=
  Eta.fromTo curLat curLng destLat destLng speed

/-- `DRONE_AVERAGE_SPEED_KMH` (env default) and the `location.util.ts`
default speed are both 50. -/
def DRONE_AVERAGE_SPEED_KMH : Rat := 50

/-- The `order` record of the Prisma model (the spec's Request). -/
structure Order where
  id : Nat
  originLat : Rat
  originLng : Rat
  destinationLat : Rat
  destinationLng : Rat
  status : OrderStatus
  createdBy : Nat
  assignedDroneId : Option Nat
  currentLat : Option Rat
  currentLng : Option Rat
  eta : Option Eta
  createdAt : Nat
  deriving DecidableEq, Repr

/-- The `drone` record of the Prisma model (the spec's Agent). -/
structure Drone where
  id : Nat
  currentLat : Rat
  currentLng : Rat
  status : DroneStatus
  isBroken : Bool
  lastHeartbeat : Nat
  deriving DecidableEq, Repr

/-- The `job` record of the Prisma model (the spec's WorkUnit). -/
structure Job where
  id : Nat
  type : JobType
  orderId : Option Nat
  originLat : Rat
  originLng : Rat
  destinationLat : Rat
  destinationLng : Rat
  brokenDroneId : Option Nat
  status : JobStatus
  assignedDroneId : Option Nat
  createdAt : Nat
  deriving DecidableEq, Repr

/-- The store: the three relations, a fresh-id counter and a clock. -/
structure St where
  orders : List Order
  drones : List Drone
  jobs : List Job
  nextId : Nat
  now : Nat
  deriving DecidableEq, Repr

/-- The empty store. -/
def St.init : St := ⟨[], [], [], 0, 0⟩

/-- Error taxonomy of `errors.util.ts`; `internal` stands for a plain
`Error` (repository `findByIdOrThrow`, a prisma update on a missing row,
an uncaught constraint violation). -/
inductive Err where
  | notFound
  | conflict (code : String)
  | validation
  | internal
  deriving DecidableEq, Repr

/-- `prisma.order.findUnique({ where: { id } })`. -/
def findOrder (s : St) (oid : Nat) : Option Order :=
  s.orders.find? (fun o => o.id == oid)

/-- `prisma.drone.findUnique({ where: { id } })`. -/
def findDrone (s : St) (did : Nat) : Option Drone :=
  s.drones.find? (fun d => d.id == did)

/-- `prisma.job.findUnique({ where: { id } })`. -/
def findJob (s : St) (jid : Nat) : Option Job :=
  s.jobs.find? (fun j => j.id == jid)

/-- `include: { assignedOrder: true }`: the order holding the foreign key
`assignedDroneId = droneId` (the relation is kept on the order side). -/
def findAssignedOrder (s : St) (did : Nat) : Option Order :=
  s.orders.find? (fun o => o.assignedDroneId == some did)

/-- `prisma.order.update({ where: { id }, data })`. -/
def updateOrder (s : St) (oid : Nat) (f : Order → Order) : St :=
  { s with orders := s.orders.map (fun o => if o.id == oid then f o else o) }

/-- `prisma.drone.update({ where: { id }, data })`. -/
def updateDrone (s : St) (did : Nat) (f : Drone → Drone) : St :=
  { s with drones := s.drones.map (fun d => if d.id == did then f d else d) }

/-- `prisma.job.update({ where: { id }, data })`. -/
def updateJob (s : St) (jid : Nat) (f : Job → Job) : St :=
  { s with jobs := s.jobs.map (fun j => if j.id == jid then f j else j) }

/-! ## JobRepository (`job.repository.ts`) -/

/-- Priority rank used by `findPendingJobs`'s `orderBy: [{ type: 'desc' }]`.
Modelled from the spec: the Prisma schema file is not part of `src/`; the
spec ("primary key = kind, HANDOFF before DELIVERY") and the repository's
own comment ("HANDOFF jobs first (priority)") fix that `type: 'desc'`
sorts HANDOFF before DELIVERY_ORDER. -/
def typeRank : JobType → Nat
  | JobType.HANDOFF => 0
  | JobType.DELIVERY_ORDER => 1

/-- The candidate order of `findPendingJobs`: HANDOFF before DELIVERY_ORDER,
then `createdAt` ascending. -/
def jobLE (a b : Job) : Prop :=
  typeRank a.type < typeRank b.type ∨
    (typeRank a.type = typeRank b.type ∧ a.createdAt ≤ b.createdAt)

instance : DecidableRel jobLE := fun a b => by
  unfold jobLE; infer_instance

instance : IsTotal Job jobLE := by
  constructor
  intro a b
  unfold jobLE
  omega

instance : IsTrans Job jobLE := by
  constructor
  intro a b c hab hbc
  unfold jobLE at *
  omega

/-- `JobRepository.findPendingJobs`: PENDING jobs ordered by
(`type` desc, `createdAt` asc). -/
def findPendingJobs (s : St) : List Job :=
  List.insertionSort jobLE (s.jobs.filter (fun j => j.status == JobStatus.PENDING))

/-- `JobRepository.reserveJob`: one `prisma.$transaction` that re-reads the
job, requires it to still be PENDING, and sets it RESERVED with
`assignedDroneId = droneId`; throws (rolling the transaction back) if the
job is missing or no longer PENDING. -/
def JobRepository.reserveJob (jobId droneId : Nat) (s : St) : Except Err (Job × St) :=
  match findJob s jobId with
  | none => Except.error Err.internal
  | some j =>
    if j.status = JobStatus.PENDING then
      let j' := { j with status := JobStatus.RESERVED, assignedDroneId := some droneId }
      Except.ok (j', updateJob s jobId (fun k =>
        { k with status := JobStatus.RESERVED, assignedDroneId := some droneId }))
    else
      Except.error Err.internal

/-- `JobRepository.countPending` (no type filter). -/
def countPending (s : St) : Nat :=
  (s.jobs.filter (fun j => j.status == JobStatus.PENDING)).length

/-! ## JobService (`job.service.ts`) -/

/-- The retry loop of `JobService.reserveJob`: walk the candidates in order,
attempt `JobRepository.reserveJob` on each, silently skip a candidate whose
claim throws ("job was already reserved, try next one"), and return the
first claim that succeeds. -/
def JobService.reserveLoop (droneId : Nat) : List Job → St → Option (Job × St)
  | [], _ => none
  | j :: rest, s =>
    match JobRepository.reserveJob j.id droneId s with
    | Except.ok (rj, s') => some (rj, s')
    | Except.error _ => JobService.reserveLoop droneId rest s

/-- `JobService.reserveJob`: fetch the ordered PENDING candidates fresh,
then walk them; `none` ("no jobs available") when the list is empty or
every attempt failed.  (The read-only assembly of the order payload in the
response is elided; the claimed job record is returned.) -/
def JobService.reserveJob (droneId : Nat) (s : St) : Option (Job × St) :=
  JobService.reserveLoop droneId (findPendingJobs s) s

/-! ## DroneService (`drone.service.ts`, `unnamed/part_009`) -/

/-- `DroneService.reserveJob`.  The precondition checks, the claim
(`JobService.reserveJob`), the order update and the drone update are four
separate store interactions — only the claim itself is a transaction — so
an error after the claim (`Except.error`) carries the state with the claim
already committed. -/
def DroneService.reserveJob (droneId : Nat) (s : St) :
    Except (Err × St) (Option Job × St) :=
  match findDrone s droneId with
  | none => Except.error (Err.notFound, s)
  | some d =>
    if d.isBroken then
      Except.error (Err.conflict "DRONE_BROKEN", s)
    else if d.status = DroneStatus.BUSY then
      Except.error (Err.conflict "DRONE_BUSY", s)
    else
      match JobService.reserveJob droneId s with
      | none => Except.ok (none, s)
      | some (rj, s1) =>
        match rj.orderId with
        | none => Except.ok (some rj, s1)
        | some oid =>
          match findOrder s1 oid with
          | none => Except.error (Err.internal, s1)
          | some _ =>
            let s2 := updateOrder s1 oid (fun o =>
              { o with status := OrderStatus.ASSIGNED, assignedDroneId := some droneId })
            let s3 := updateDrone s2 droneId (fun dr => { dr with status := DroneStatus.BUSY })
            Except.ok (some rj, s3)

/-- `DroneService.grabOrder`: precondition checks, then one transaction
setting the order IN_TRANSIT with `currentLat/Lng = origin` and a fresh ETA
(drone position → order destination), and the drone BUSY. -/
def DroneService.grabOrder (orderId droneId : Nat) (s : St) :
    Except (Err × St) (Unit × St) :=
  match findDrone s droneId with
  | none => Except.error (Err.internal, s)
  | some d =>
    if d.isBroken then
      Except.error (Err.conflict "DRONE_BROKEN", s)
    else
      match findOrder s orderId with
      | none => Except.error (Err.internal, s)
      | some o =>
        if o.assignedDroneId ≠ some droneId then
          Except.error (Err.conflict "ORDER_NOT_ASSIGNED", s)
        else if o.status ≠ OrderStatus.PENDING ∧ o.status ≠ OrderStatus.ASSIGNED then
          Except.error (Err.conflict "INVALID_ORDER_STATUS", s)
        else
          let eta := calculateETAFromLocation d.currentLat d.currentLng
            o.destinationLat o.destinationLng DRONE_AVERAGE_SPEED_KMH
          let s1 := updateOrder s orderId (fun oo =>
            { oo with status := OrderStatus.IN_TRANSIT,
                      currentLat := some o.originLat,
                      currentLng := some o.originLng,
                      eta := some eta })
          Except.ok ((), updateDrone s1 droneId (fun dr => { dr with status := DroneStatus.BUSY }))

/-- `DroneService.markOrderDelivered`: NotFound when the order is not
assigned to this drone; otherwise one transaction setting the order
DELIVERED with `currentLat/Lng = destination` and `eta = null`, completing
every job with this `orderId` and `assignedDroneId`, and setting the drone
AVAILABLE. -/
def DroneService.markOrderDelivered (orderId droneId : Nat) (s : St) :
    Except (Err × St) (Unit × St) :=
  match findDrone s droneId with
  | none => Except.error (Err.internal, s)
  | some _ =>
    match findOrder s orderId with
    | none => Except.error (Err.internal, s)
    | some o =>
      if o.assignedDroneId ≠ some droneId then
        Except.error (Err.notFound, s)
      else
        let s1 := updateOrder s orderId (fun oo =>
          { oo with status := OrderStatus.DELIVERED,
                    currentLat := some o.destinationLat,
                    currentLng := some o.destinationLng,
                    eta := none })
        let s2 := { s1 with jobs := s1.jobs.map (fun j =>
          if j.orderId == some orderId ∧ j.assignedDroneId == some droneId then
            { j with status := JobStatus.COMPLETED }
          else j) }
        Except.ok ((), updateDrone s2 droneId (fun dr => { dr with status := DroneStatus.AVAILABLE }))

/-- `DroneService.markOrderFailed`: same precondition as delivered; one
transaction setting the order FAILED with `eta = null` and the drone
AVAILABLE; jobs are not touched. -/
def DroneService.markOrderFailed (orderId droneId : Nat) (s : St) :
    Except (Err × St) (Unit × St) :=
  match findDrone s droneId with
  | none => Except.error (Err.internal, s)
  | some _ =>
    match findOrder s orderId with
    | none => Except.error (Err.internal, s)
    | some o =>
      if o.assignedDroneId ≠ some droneId then
        Except.error (Err.notFound, s)
      else
        let s1 := updateOrder s orderId (fun oo =>
          { oo with status := OrderStatus.FAILED, eta := none })
        Except.ok ((), updateDrone s1 droneId (fun dr => { dr with status := DroneStatus.AVAILABLE }))

/-- The handoff job created inside `markDroneBroken`. -/
def handoffJob (s : St) (d : Drone) (o : Order) : Job :=
  { id := s.nextId
    type := JobType.HANDOFF
    orderId := some o.id
    originLat := d.currentLat
    originLng := d.currentLng
    destinationLat := o.destinationLat
    destinationLng := o.destinationLng
    brokenDroneId := some d.id
    status := JobStatus.PENDING
    assignedDroneId := none
    createdAt := s.now }

/-- `DroneService.markDroneBroken`: no-op when already broken; otherwise one
transaction that, if the drone holds an order (`assignedOrder` relation),
creates a PENDING HANDOFF job for it and resets the order to PENDING
(unassigned, `currentLat/Lng` = drone position, `eta = null`), and in every
case sets the drone BROKEN with `isBroken = true`. -/
def DroneService.markDroneBroken (droneId : Nat) (s : St) :
    Except (Err × St) (Unit × St) :=
  match findDrone s droneId with
  | none => Except.error (Err.internal, s)
  | some d =>
    if d.isBroken then
      Except.ok ((), s)
    else
      let s1 :=
        match findAssignedOrder s droneId with
        | none => s
        | some o =>
          let s' := { s with jobs := s.jobs ++ [handoffJob s d o], nextId := s.nextId + 1 }
          updateOrder s' o.id (fun oo =>
            { oo with status := OrderStatus.PENDING,
                      assignedDroneId := none,
                      currentLat := some d.currentLat,
                      currentLng := some d.currentLng,
                      eta := none })
      Except.ok ((), updateDrone s1 droneId (fun dr =>
        { dr with status := DroneStatus.BROKEN, isBroken := true }))

/-- `DroneService.markDroneFixed`: sets the drone AVAILABLE with
`isBroken = false`; outstanding handoff jobs are deliberately untouched. -/
def DroneService.markDroneFixed (droneId : Nat) (s : St) :
    Except (Err × St) (Unit × St) :=
  match findDrone s droneId with
  | none => Except.error (Err.internal, s)
  | some _ =>
    Except.ok ((), updateDrone s droneId (fun dr =>
      { dr with status := DroneStatus.AVAILABLE, isBroken := false }))

/-- `validateCoordinates` of `location.util.ts` (NaN / infinities are not
representable in `Rat`; the range checks are embedded). -/
def validateCoordinates (lat lng : Rat) : Except Err Unit :=
  if lat < -90 ∨ lat > 90 then Except.error Err.validation
  else if lng < -180 ∨ lng > 180 then Except.error Err.validation
  else Except.ok ()

/-- `DroneService.updateLocation`: validate the coordinate; if the drone's
assigned order is IN_TRANSIT, recompute its ETA from the new position and
persist `currentLat/Lng` and `eta`; then update the drone's position and
heartbeat.  Returns the status summary (`error` if broken, `warning` if
BUSY without an in-transit order, else `ok`) and the PENDING-job count. -/
def DroneService.updateLocation (droneId : Nat) (lat lng : Rat) (s : St) :
    Except (Err × St) ((String × Nat) × St) :=
  match validateCoordinates lat lng with
  | Except.error e => Except.error (e, s)
  | Except.ok () =>
    match findDrone s droneId with
    | none => Except.error (Err.notFound, s)
    | some _ =>
      let inTransit :=
        match findAssignedOrder s droneId with
        | none => none
        | some o => if o.status = OrderStatus.IN_TRANSIT then some o else none
      let s1 :=
        match inTransit with
        | none => s
        | some o =>
          updateOrder s o.id (fun oo =>
            { oo with currentLat := some lat, currentLng := some lng,
                      eta := some (calculateETAFromLocation lat lng
                        o.destinationLat o.destinationLng DRONE_AVERAGE_SPEED_KMH) })
      let s2 := updateDrone s1 droneId (fun dr =>
        { dr with currentLat := lat, currentLng := lng, lastHeartbeat := s.now })
      match findDrone s2 droneId with
      | none => Except.error (Err.notFound, s2)
      | some d2 =>
        let status :=
          if d2.isBroken then "error"
          else if d2.status = DroneStatus.BUSY ∧ inTransit = none then "warning"
          else "ok"
        Except.ok ((status, countPending s2), s2)

/-! ## OrderService (`order.service.ts`) -/

/-- `OrderService.submitOrder`: validate both coordinates, reject identical
origin/destination, then create the order (PENDING) and its paired
DELIVERY_ORDER job (PENDING). -/
def OrderService.submitOrder (oLat oLng dLat dLng : Rat) (userId : Nat) (s : St) :
    Except (Err × St) (Nat × St) :=
  match validateCoordinates oLat oLng with
  | Except.error e => Except.error (e, s)
  | Except.ok () =>
  match validateCoordinates dLat dLng with
  | Except.error e => Except.error (e, s)
  | Except.ok () =>
    if oLat = dLat ∧ oLng = dLng then
      Except.error (Err.validation, s)
    else
      let order : Order :=
        { id := s.nextId, originLat := oLat, originLng := oLng,
          destinationLat := dLat, destinationLng := dLng,
          status := OrderStatus.PENDING, createdBy := userId,
          assignedDroneId := none, currentLat := none, currentLng := none,
          eta := none, createdAt := s.now }
      let job : Job :=
        { id := s.nextId + 1, type := JobType.DELIVERY_ORDER,
          orderId := some order.id, originLat := oLat, originLng := oLng,
          destinationLat := dLat, destinationLng := dLng,
          brokenDroneId := none, status := JobStatus.PENDING,
          assignedDroneId := none, createdAt := s.now }
      Except.ok (order.id,
        { s with orders := s.orders ++ [order], jobs := s.jobs ++ [job],
                 nextId := s.nextId + 2 })

/-- `OrderService.withdrawOrder`: NotFound when the order is missing or
owned by someone else; Conflict when not PENDING or already assigned;
otherwise one transaction setting the order WITHDRAWN and deleting its
still-PENDING DELIVERY_ORDER jobs. -/
def OrderService.withdrawOrder (orderId userId : Nat) (s : St) :
    Except (Err × St) (Unit × St) :=
  match findOrder s orderId with
  | none => Except.error (Err.notFound, s)
  | some o =>
    if o.createdBy ≠ userId then
      Except.error (Err.notFound, s)
    else if o.status ≠ OrderStatus.PENDING then
      Except.error (Err.conflict "ORDER_ALREADY_ASSIGNED", s)
    else if o.assignedDroneId ≠ none then
      Except.error (Err.conflict "ORDER_ALREADY_ASSIGNED", s)
    else
      let s1 := updateOrder s orderId (fun oo => { oo with status := OrderStatus.WITHDRAWN })
      Except.ok ((), { s1 with jobs := s1.jobs.filter (fun j =>
        ¬(j.orderId == some orderId ∧ j.type == JobType.DELIVERY_ORDER ∧
          j.status == JobStatus.PENDING)) })

/-- JavaScript `a || b` on a nullable number: `null`, `undefined` and `0`
are all falsy, so the fallback is taken for a stored `0` as well. -/
def jsOr (a : Option Rat) (b : Rat) : Rat :=
  match a with
  | none => b
  | some v => if v = 0 then b else v

/-- `OrderService.updateOrderOrigin`: validate, require the order to exist,
recompute the ETA when `assignedDroneId` is truthy and the status is
ASSIGNED or IN_TRANSIT — with `currentLat || originLat` (JS `||`, not `??`)
as the start point and the unchanged destination as the end point — then
update `originLat/Lng` and `eta`. -/
def OrderService.updateOrderOrigin (orderId : Nat) (lat lng : Rat) (s : St) :
    Except (Err × St) (Unit × St) :=
  match validateCoordinates lat lng with
  | Except.error e => Except.error (e, s)
  | Except.ok () =>
    match findOrder s orderId with
    | none => Except.error (Err.internal, s)
    | some o =>
      let eta :=
        if o.assignedDroneId.isSome ∧
            (o.status = OrderStatus.ASSIGNED ∨ o.status = OrderStatus.IN_TRANSIT) then
          some (calculateETAFromLocation (jsOr o.currentLat o.originLat)
            (jsOr o.currentLng o.originLng) o.destinationLat o.destinationLng 50)
        else o.eta
      Except.ok ((), updateOrder s orderId (fun oo =>
        { oo with originLat := lat, originLng := lng, eta := eta }))

/-- `OrderService.updateOrderDestination`: as `updateOrderOrigin`, but the
ETA's end point is the *new* destination and `destinationLat/Lng` are
updated. -/
def OrderService.updateOrderDestination (orderId : Nat) (lat lng : Rat) (s : St) :
    Except (Err × St) (Unit × St) :=
  match validateCoordinates lat lng with
  | Except.error e => Except.error (e, s)
  | Except.ok () =>
    match findOrder s orderId with
    | none => Except.error (Err.internal, s)
    | some o =>
      let eta :=
        if o.assignedDroneId.isSome ∧
            (o.status = OrderStatus.ASSIGNED ∨ o.status = OrderStatus.IN_TRANSIT) then
          some (calculateETAFromLocation (jsOr o.currentLat o.originLat)
            (jsOr o.currentLng o.originLng) lat lng 50)
        else o.eta
      Except.ok ((), updateOrder s orderId (fun oo =>
        { oo with destinationLat := lat, destinationLng := lng, eta := eta }))

/-- `DroneRepository.create` (drone registration, out-of-band): a new
AVAILABLE, non-broken drone. -/
def registerDrone (lat lng : Rat) (s : St) : St :=
  { s with
    drones := s.drones ++ [{ id := s.nextId, currentLat := lat, currentLng := lng,
                             status := DroneStatus.AVAILABLE, isBroken := false,
                             lastHeartbeat := s.now }]
    nextId := s.nextId + 1 }

/-! ## The operation alphabet and reachable states -/

/-- One core operation with its parameters. -/
inductive Op where
  | submit (oLat oLng dLat dLng : Rat) (userId : Nat)
  | withdraw (orderId userId : Nat)
  | reserve (droneId : Nat)
  | grab (orderId droneId : Nat)
  | deliver (orderId droneId : Nat)
  | fail (orderId droneId : Nat)
  | markBroken (droneId : Nat)
  | markFixed (droneId : Nat)
  | updateLoc (droneId : Nat) (lat lng : Rat)
  | adminOrigin (orderId : Nat) (lat lng : Rat)
  | adminDest (orderId : Nat) (lat lng : Rat)
  | register (lat lng : Rat)
  deriving DecidableEq, Repr

/-- The state an operation leaves behind: the success state, or — since the
error side carries the writes committed before the throw — the error state. -/
def stateOf {α : Type} : Except (Err × St) (α × St) → St
  | Except.ok (_, s) => s
  | Except.error (_, s) => s

/-- Advance the clock (each operation happens at a fresh timestamp). -/
def tick (s : St) : St := { s with now := s.now + 1 }

/-- Apply one operation to the store. -/
def applyOp (op : Op) (s : St) : St :=
  tick <|
    match op with
    | Op.submit a b c d u => stateOf (OrderService.submitOrder a b c d u s)
    | Op.withdraw o u => stateOf (OrderService.withdrawOrder o u s)
    | Op.reserve d => stateOf (DroneService.reserveJob d s)
    | Op.grab o d => stateOf (DroneService.grabOrder o d s)
    | Op.deliver o d => stateOf (DroneService.markOrderDelivered o d s)
    | Op.fail o d => stateOf (DroneService.markOrderFailed o d s)
    | Op.markBroken d => stateOf (DroneService.markDroneBroken d s)
    | Op.markFixed d => stateOf (DroneService.markDroneFixed d s)
    | Op.updateLoc d la ln => stateOf (DroneService.updateLocation d la ln s)
    | Op.adminOrigin o la ln => stateOf (OrderService.updateOrderOrigin o la ln s)
    | Op.adminDest o la ln => stateOf (OrderService.updateOrderDestination o la ln s)
    | Op.register la ln => registerDrone la ln s

/-- The state reached from the empty store by a sequence of operations. -/
def reach (ops : List Op) : St :=
  ops.foldl (fun s op => applyOp op s) St.init

/-- The status of order `oid` in state `s`, when it exists. -/
def statusOf (s : St) (oid : Nat) : Option OrderStatus :=
  (findOrder s oid).map (fun o => o.status)

/-! ## Invariants of reachable states -/

/-- The per-order invariant that actually holds on reachable states:
`assignedDroneId` is non-null exactly in the four statuses entered through
an assignment-checked operation (`deliver`/`fail` never clear it), and a
coordinate is present whenever the order is IN_TRANSIT or DELIVERED. -/
def OrderInv (o : Order) : Prop :=
  (o.assignedDroneId ≠ none ↔
    (o.status = OrderStatus.ASSIGNED ∨ o.status = OrderStatus.IN_TRANSIT ∨
     o.status = OrderStatus.DELIVERED ∨ o.status = OrderStatus.FAILED)) ∧
  ((o.status = OrderStatus.IN_TRANSIT ∨ o.status = OrderStatus.DELIVERED) →
    (o.currentLat ≠ none ∧ o.currentLng ≠ none))

/-- `j` is a PENDING job linked to order `oid`. -/
def pl (oid : Nat) (j : Job) : Prop :=
  j.status = JobStatus.PENDING ∧ j.orderId = some oid

instance (oid : Nat) (j : Job) : Decidable (pl oid j) := by
  unfold pl; infer_instance

/-- The inductive invariant of the system. -/
structure Good (s : St) : Prop where
  ordInv : ∀ o ∈ s.orders, OrderInv o
  ordIdLt : ∀ o ∈ s.orders, o.id < s.nextId
  ordNodup : s.orders.Pairwise (fun a b => a.id ≠ b.id)
  jobIdLt : ∀ j ∈ s.jobs, j.id < s.nextId
  jobNodup : s.jobs.Pairwise (fun a b => a.id ≠ b.id)
  pendUnassigned : ∀ j ∈ s.jobs, j.status = JobStatus.PENDING → j.assignedDroneId = none
  linkEx : ∀ j ∈ s.jobs, ∀ oid, j.orderId = some oid → ∃ o, o ∈ s.orders ∧ o.id = oid
  pendUnique : ∀ j ∈ s.jobs, ∀ k ∈ s.jobs, ∀ oid, pl oid j → pl oid k → j = k
  assignedNoPend : ∀ o ∈ s.orders, o.assignedDroneId ≠ none → ∀ j ∈ s.jobs, ¬ pl o.id j

/-! ## Claim-level definitions -/

/-- The status edges a Request can actually traverse: the declared diagram
(PENDING→ASSIGNED, ASSIGNED→IN_TRANSIT, IN_TRANSIT→DELIVERED/FAILED,
PENDING→WITHDRAWN), plus the edges forced by the code checking only the
assignee on `deliver`/`fail`/`markBroken` (sources ASSIGNED, IN_TRANSIT,
DELIVERED, FAILED for targets DELIVERED, FAILED, PENDING), plus
WITHDRAWN→ASSIGNED (reserve of a surviving HANDOFF unit). -/
def allowedEdge (a b : OrderStatus) : Prop :=
  (a = OrderStatus.PENDING ∧ b = OrderStatus.ASSIGNED) ∨
  (a = OrderStatus.WITHDRAWN ∧ b = OrderStatus.ASSIGNED) ∨
  (a = OrderStatus.ASSIGNED ∧ b = OrderStatus.IN_TRANSIT) ∨
  ((a = OrderStatus.ASSIGNED ∨ a = OrderStatus.IN_TRANSIT ∨ a = OrderStatus.DELIVERED ∨
      a = OrderStatus.FAILED) ∧
    (b = OrderStatus.DELIVERED ∨ b = OrderStatus.FAILED ∨ b = OrderStatus.PENDING)) ∨
  (a = OrderStatus.PENDING ∧ b = OrderStatus.WITHDRAWN)

instance (a b : OrderStatus) : Decidable (allowedEdge a b) := by
  unfold allowedEdge; infer_instance

/-- One claim attempt (the conditional PENDING→RESERVED transaction) by
agent `droneId` on job `jobId`: the atomic step a concurrent `reserve`
walk performs against the shared store.  Returns whether the claim won. -/
def claimAttempt (jobId droneId : Nat) (s : St) : Bool × St :=
  match JobRepository.reserveJob jobId droneId s with
  | Except.ok (_, s') => (true, s')
  | Except.error _ => (false, s)

/-- Run a serialized schedule of claim attempts (each a pair
`(jobId, droneId)`) against the store. -/
def runClaims : List (Nat × Nat) → St → St
  | [], s => s
  | (j, d) :: rest, s => runClaims rest (claimAttempt j d s).2

/-- The attempts of a schedule that succeed (the reservations actually
returned RESERVED to their caller). -/
def claimWinners : List (Nat × Nat) → St → List (Nat × Nat)
  | [], _ => []
  | (j, d) :: rest, s =>
    let r := claimAttempt j d s
    if r.1 then (j, d) :: claimWinners rest r.2 else claimWinners rest r.2

/-- A store with one PENDING unlinked job and nothing else: the arena for
the reservation race. -/
def raceState : St :=
  { orders := []
    drones := []
    jobs := [{ id := 7, type := JobType.DELIVERY_ORDER, orderId := none, originLat := 1,
               originLng := 2, destinationLat := 3, destinationLng := 4, brokenDroneId := none,
               status := JobStatus.PENDING, assignedDroneId := none, createdAt := 0 }]
    nextId := 8
    now := 0 }

/-- A store with an AVAILABLE drone and a PENDING job whose `orderId` does
not resolve, so the secondary Request update of `reserveJob` throws after
the claim transaction already committed. -/
def orphanState : St :=
  { orders := []
    drones := [{ id := 5, currentLat := 1, currentLng := 1, status := DroneStatus.AVAILABLE,
                 isBroken := false, lastHeartbeat := 0 }]
    jobs := [{ id := 7, type := JobType.DELIVERY_ORDER, orderId := some 99, originLat := 1,
               originLng := 2, destinationLat := 3, destinationLng := 4, brokenDroneId := none,
               status := JobStatus.PENDING, assignedDroneId := none, createdAt := 0 }]
    nextId := 8
    now := 1 }

/-- A store with one AVAILABLE drone and no jobs at all. -/
def idleState : St :=
  { orders := []
    drones := [{ id := 5, currentLat := 1, currentLng := 1, status := DroneStatus.AVAILABLE,
                 isBroken := false, lastHeartbeat := 0 }]
    jobs := []
    nextId := 6
    now := 0 }

/-- A store whose single IN_TRANSIT order has a stored `currentLat` of `0`
(the equator), distinguishing JS `||` from `??` in the admin updates. -/
def zeroLatState : St :=
  { orders := [{ id := 1, originLat := 10, originLng := 20, destinationLat := 5,
                 destinationLng := 25, status := OrderStatus.IN_TRANSIT, createdBy := 7,
                 assignedDroneId := some 0, currentLat := some 0, currentLng := some 30,
                 eta := none, createdAt := 0 }]
    drones := []
    jobs := []
    nextId := 2
    now := 1 }

/-- A store where a WITHDRAWN order still has a PENDING HANDOFF job (the
withdrawal deletes only DELIVERY_ORDER jobs), and an AVAILABLE drone. -/
def withdrawnHandoffState : St :=
  { orders := [{ id := 1, originLat := 1, originLng := 2, destinationLat := 3,
                 destinationLng := 4, status := OrderStatus.WITHDRAWN, createdBy := 7,
                 assignedDroneId := none, currentLat := some 5, currentLng := some 6,
                 eta := none, createdAt := 0 }]
    drones := [{ id := 0, currentLat := 5, currentLng := 6, status := DroneStatus.AVAILABLE,
                 isBroken := false, lastHeartbeat := 0 }]
    jobs := [{ id := 3, type := JobType.HANDOFF, orderId := some 1, originLat := 5,
               originLng := 6, destinationLat := 3, destinationLng := 4,
               brokenDroneId := some 2, status := JobStatus.PENDING, assignedDroneId := none,
               createdAt := 1 }]
    nextId := 4
    now := 2 }

/-- A store with an IN_TRANSIT order assigned to drone 0, the drone BUSY,
and the RESERVED delivery job. -/
def assignedState : St :=
  { orders := [{ id := 1, originLat := 1, originLng := 2, destinationLat := 3,
                 destinationLng := 4, status := OrderStatus.IN_TRANSIT, createdBy := 7,
                 assignedDroneId := some 0, currentLat := some 1, currentLng := some 2,
                 eta := none, createdAt := 0 }]
    drones := [{ id := 0, currentLat := 1, currentLng := 1, status := DroneStatus.BUSY,
                 isBroken := false, lastHeartbeat := 0 }]
    jobs := [{ id := 2, type := JobType.DELIVERY_ORDER, orderId := some 1, originLat := 1,
               originLng := 2, destinationLat := 3, destinationLng := 4,
               brokenDroneId := none, status := JobStatus.RESERVED, assignedDroneId := some 0,
               createdAt := 0 }]
    nextId := 3
    now := 1 }

/-! ## Generic list lemmas -/

theorem find?_map_of_id {α : Type} (getId : α → Nat) (g : α → α)
    (hg : ∀ x, getId (g x) = getId x) (l : List α) (n : Nat) :
    (l.map g).find? (fun x => getId x == n) = (l.find? (fun x => getId x == n)).map g := by
  rw [List.find?_map]
  have : ((fun x => getId x == n) ∘ g) = (fun x => getId x == n) := by
    funext x
    simp [Function.comp, hg]
  rw [this]

theorem find?_self_of_nodup {α : Type} (getId : α → Nat) (l : List α)
    (hn : l.Pairwise (fun a b => getId a ≠ getId b)) (a : α) (ha : a ∈ l) :
    l.find? (fun x => getId x == getId a) = some a := by
  induction l with
  | nil => cases ha
  | cons b t ih =>
    rcases List.mem_cons.mp ha with rfl | hat
    · simp [List.find?]
    · have hb : getId b ≠ getId a := (List.pairwise_cons.mp hn).1 a hat
      have hbeq : (getId b == getId a) = false := by simp [hb]
      simp only [List.find?, hbeq]
      exact ih (List.pairwise_cons.mp hn).2 hat

theorem findOrder_updateOrder (s : St) (oid' : Nat) (f : Order → Order)
    (hf : ∀ o, (f o).id = o.id) (oid : Nat) :
    findOrder (updateOrder s oid' f) oid =
      (findOrder s oid).map (fun o => if o.id == oid' then f o else o) := by
  unfold findOrder updateOrder
  exact find?_map_of_id (fun (o : Order) => o.id) _ (by intro x; by_cases h : x.id == oid' <;> simp [h, hf]) _ _

theorem findJob_updateJob (s : St) (jid' : Nat) (f : Job → Job)
    (hf : ∀ j, (f j).id = j.id) (jid : Nat) :
    findJob (updateJob s jid' f) jid =
      (findJob s jid).map (fun j => if j.id == jid' then f j else j) := by
  unfold findJob updateJob
  exact find?_map_of_id (fun (j : Job) => j.id) _ (by intro x; by_cases h : x.id == jid' <;> simp [h, hf]) _ _

theorem findDrone_updateDrone (s : St) (did' : Nat) (f : Drone → Drone)
    (hf : ∀ d, (f d).id = d.id) (did : Nat) :
    findDrone (updateDrone s did' f) did =
      (findDrone s did).map (fun d => if d.id == did' then f d else d) := by
  unfold findDrone updateDrone
  exact find?_map_of_id (fun (d : Drone) => d.id) _ (by intro x; by_cases h : x.id == did' <;> simp [h, hf]) _ _

theorem eq_of_mem_ids {α : Type} (getId : α → Nat) (l : List α)
    (hp : l.Pairwise (fun x y => getId x ≠ getId y)) :
    ∀ a ∈ l, ∀ b ∈ l, getId a = getId b → a = b := by
  induction l with
  | nil => intro a ha; cases ha
  | cons c t ih =>
    intro a ha b hb hab
    rcases List.pairwise_cons.mp hp with ⟨hc, ht⟩
    rcases List.mem_cons.mp ha with rfl | hat
    · rcases List.mem_cons.mp hb with rfl | hbt
      · rfl
      · exact absurd hab (hc b hbt)
    · rcases List.mem_cons.mp hb with rfl | hbt
      · exact absurd hab.symm (hc a hat)
      · exact ih ht a hat b hbt hab

@[simp] theorem updateOrder_jobs (s : St) (oid : Nat) (f : Order → Order) :
    (updateOrder s oid f).jobs = s.jobs := rfl

@[simp] theorem updateOrder_drones (s : St) (oid : Nat) (f : Order → Order) :
    (updateOrder s oid f).drones = s.drones := rfl

@[simp] theorem updateOrder_nextId (s : St) (oid : Nat) (f : Order → Order) :
    (updateOrder s oid f).nextId = s.nextId := rfl

@[simp] theorem updateOrder_orders (s : St) (oid : Nat) (f : Order → Order) :
    (updateOrder s oid f).orders = s.orders.map (fun o => if o.id == oid then f o else o) := rfl

@[simp] theorem updateJob_orders (s : St) (jid : Nat) (f : Job → Job) :
    (updateJob s jid f).orders = s.orders := rfl

@[simp] theorem updateJob_drones (s : St) (jid : Nat) (f : Job → Job) :
    (updateJob s jid f).drones = s.drones := rfl

@[simp] theorem updateJob_nextId (s : St) (jid : Nat) (f : Job → Job) :
    (updateJob s jid f).nextId = s.nextId := rfl

@[simp] theorem updateJob_jobs (s : St) (jid : Nat) (f : Job → Job) :
    (updateJob s jid f).jobs = s.jobs.map (fun j => if j.id == jid then f j else j) := rfl

@[simp] theorem updateDrone_orders (s : St) (did : Nat) (f : Drone → Drone) :
    (updateDrone s did f).orders = s.orders := rfl

@[simp] theorem updateDrone_jobs (s : St) (did : Nat) (f : Drone → Drone) :
    (updateDrone s did f).jobs = s.jobs := rfl

@[simp] theorem updateDrone_nextId (s : St) (did : Nat) (f : Drone → Drone) :
    (updateDrone s did f).nextId = s.nextId := rfl

@[simp] theorem tick_orders (s : St) : (tick s).orders = s.orders := rfl

@[simp] theorem tick_jobs (s : St) : (tick s).jobs = s.jobs := rfl

@[simp] theorem tick_drones (s : St) : (tick s).drones = s.drones := rfl

@[simp] theorem tick_nextId (s : St) : (tick s).nextId = s.nextId := rfl

/-- A found order is a member and satisfies the search predicate. -/
theorem findOrder_mem {s : St} {oid : Nat} {o : Order} (h : findOrder s oid = some o) :
    o ∈ s.orders ∧ o.id = oid := by
  refine ⟨List.mem_of_find?_eq_some h, ?_⟩
  have := List.find?_some h
  simpa using this

theorem findJob_mem {s : St} {jid : Nat} {j : Job} (h : findJob s jid = some j) :
    j ∈ s.jobs ∧ j.id = jid := by
  refine ⟨List.mem_of_find?_eq_some h, ?_⟩
  have := List.find?_some h
  simpa using this

theorem findDrone_mem {s : St} {did : Nat} {d : Drone} (h : findDrone s did = some d) :
    d ∈ s.drones ∧ d.id = did := by
  refine ⟨List.mem_of_find?_eq_some h, ?_⟩
  have := List.find?_some h
  simpa using this

theorem findAssignedOrder_mem {s : St} {did : Nat} {o : Order}
    (h : findAssignedOrder s did = some o) :
    o ∈ s.orders ∧ o.assignedDroneId = some did := by
  refine ⟨List.mem_of_find?_eq_some h, ?_⟩
  have := List.find?_some h
  simpa using this

/-- What a successful `JobService` reservation walk did to the store: some
job that was PENDING was set RESERVED for the drone, atomically. -/
theorem reserveLoop_spec {d : Nat} {cands : List Job} {s : St} {rj : Job} {s1 : St}
    (h : JobService.reserveLoop d cands s = some (rj, s1)) :
    ∃ jid j, findJob s jid = some j ∧ j.status = JobStatus.PENDING ∧
      rj = { j with status := JobStatus.RESERVED, assignedDroneId := some d } ∧
      s1 = updateJob s jid (fun k =>
        { k with status := JobStatus.RESERVED, assignedDroneId := some d }) := by
  induction cands with
  | nil => simp [JobService.reserveLoop] at h
  | cons c rest ih =>
    rw [JobService.reserveLoop] at h
    rcases htx : JobRepository.reserveJob c.id d s with e | p
    · rw [htx] at h
      exact ih h
    · rw [htx] at h
      rcases p with ⟨rj', s1'⟩
      dsimp only at h
      unfold JobRepository.reserveJob at htx
      rcases hfj : findJob s c.id with _ | j
      · rw [hfj] at htx; cases htx
      · rw [hfj] at htx
        dsimp only at htx
        by_cases hp : j.status = JobStatus.PENDING
        · rw [if_pos hp] at htx
          rcases htx with ⟨⟩
          rcases h with ⟨⟩
          exact ⟨c.id, j, hfj, hp, rfl, rfl⟩
        · rw [if_neg hp] at htx; cases htx

/-! ## Preservation toolkit -/

theorem pairwise_ids_map {α : Type} (getId : α → Nat) (g : α → α)
    (hg : ∀ x, getId (g x) = getId x) (l : List α)
    (h : l.Pairwise (fun a b => getId a ≠ getId b)) :
    (l.map g).Pairwise (fun a b => getId a ≠ getId b) := by
  rw [List.pairwise_map]
  exact h.imp (by intro a b hab; simpa [hg] using hab)

/-- A state that keeps the orders and jobs and does not decrease `nextId`
stays Good. -/
theorem good_mono {s s' : St} (ho : s'.orders = s.orders) (hj : s'.jobs = s.jobs)
    (hn : s.nextId ≤ s'.nextId) (hG : Good s) : Good s' := by
  refine ⟨?_, ?_, ?_, ?_, ?_, ?_, ?_, ?_, ?_⟩
  · rw [ho]; exact hG.ordInv
  · rw [ho]; intro o hoo; exact lt_of_lt_of_le (hG.ordIdLt o hoo) hn
  · rw [ho]; exact hG.ordNodup
  · rw [hj]; intro j hjj; exact lt_of_lt_of_le (hG.jobIdLt j hjj) hn
  · rw [hj]; exact hG.jobNodup
  · rw [hj]; exact hG.pendUnassigned
  · rw [hj, ho]; exact hG.linkEx
  · rw [hj]; exact hG.pendUnique
  · rw [ho, hj]; exact hG.assignedNoPend

theorem good_tick {s : St} (hG : Good s) : Good (tick s) :=
  @good_mono s (tick s) rfl rfl (le_refl _) hG

/-- An order update that keeps id, status and assignee and can only add
coordinates preserves Good. -/
theorem good_update_order_benign {s : St} (oid : Nat) (f : Order → Order)
    (hid : ∀ o, (f o).id = o.id) (hst : ∀ o, (f o).status = o.status)
    (has : ∀ o, (f o).assignedDroneId = o.assignedDroneId)
    (hla : ∀ o, (f o).currentLat = o.currentLat ∨ (f o).currentLat ≠ none)
    (hln : ∀ o, (f o).currentLng = o.currentLng ∨ (f o).currentLng ≠ none)
    (hG : Good s) : Good (updateOrder s oid f) := by
  have hgid : ∀ o : Order, (if o.id == oid then f o else o).id = o.id := by
    intro o; by_cases h : o.id = oid <;> simp [h, hid]
  have hgst : ∀ o : Order, (if o.id == oid then f o else o).status = o.status := by
    intro o; by_cases h : o.id = oid <;> simp [h, hst]
  have hgas : ∀ o : Order, (if o.id == oid then f o else o).assignedDroneId = o.assignedDroneId := by
    intro o; by_cases h : o.id = oid <;> simp [h, has]
  refine ⟨?_, ?_, ?_, ?_, ?_, ?_, ?_, ?_, ?_⟩
  · intro o' ho'
    rcases List.mem_map.mp ho' with ⟨o, hoo, rfl⟩
    have hI := hG.ordInv o hoo
    constructor
    · rw [hgas, hgst]; exact hI.1
    · rw [hgst]
      intro hstI
      have hc := hI.2 hstI
      constructor
      · by_cases h : o.id == oid
        · simp only [h, if_pos]
          rcases hla o with h' | h'
          · rw [h']; exact hc.1
          · exact h'
        · simp only [h, if_neg]; exact hc.1
      · by_cases h : o.id == oid
        · simp only [h, if_pos]
          rcases hln o with h' | h'
          · rw [h']; exact hc.2
          · exact h'
        · simp only [h, if_neg]; exact hc.2
  · intro o' ho'
    rcases List.mem_map.mp ho' with ⟨o, hoo, rfl⟩
    rw [updateOrder_nextId, hgid]
    exact hG.ordIdLt o hoo
  · exact pairwise_ids_map (fun (o : Order) => o.id) _ hgid _ hG.ordNodup
  · exact hG.jobIdLt
  · exact hG.jobNodup
  · exact hG.pendUnassigned
  · intro j hj oid' hlink
    rcases hG.linkEx j hj oid' hlink with ⟨o, hoo, hoid⟩
    exact ⟨(if o.id == oid then f o else o), List.mem_map.mpr ⟨o, hoo, rfl⟩, by rw [hgid]; exact hoid⟩
  · exact hG.pendUnique
  · intro o' ho'
    rcases List.mem_map.mp ho' with ⟨o, hoo, rfl⟩
    rw [hgas, hgid]
    exact hG.assignedNoPend o hoo

/-- An order update keyed to a member `o₀`, replacing it by something that
satisfies the invariant, preserves Good. -/
theorem good_update_order_found {s : St} {o₀ : Order} (ho₀ : o₀ ∈ s.orders)
    (f : Order → Order) (hid : ∀ o, (f o).id = o.id)
    (hInv : OrderInv (f o₀))
    (hnop : (f o₀).assignedDroneId ≠ none → ∀ j ∈ s.jobs, ¬ pl o₀.id j)
    (hG : Good s) : Good (updateOrder s o₀.id f) := by
  have hgid : ∀ o : Order, (if o.id == o₀.id then f o else o).id = o.id := by
    intro o; by_cases h : o.id = o₀.id <;> simp [h, hid]
  have heq : ∀ o ∈ s.orders, o.id = o₀.id → o = o₀ := by
    intro o hoo h
    exact eq_of_mem_ids (fun (x : Order) => x.id) _ hG.ordNodup o hoo o₀ ho₀ h
  refine ⟨?_, ?_, ?_, ?_, ?_, ?_, ?_, ?_, ?_⟩
  · intro o' ho'
    rcases List.mem_map.mp ho' with ⟨o, hoo, rfl⟩
    by_cases h : o.id == o₀.id
    · have : o = o₀ := heq o hoo (by simpa using h)
      subst this
      simp only [h, if_pos]
      exact hInv
    · simp only [h, if_neg]
      exact hG.ordInv o hoo
  · intro o' ho'
    rcases List.mem_map.mp ho' with ⟨o, hoo, rfl⟩
    rw [updateOrder_nextId, hgid]
    exact hG.ordIdLt o hoo
  · exact pairwise_ids_map (fun (o : Order) => o.id) _ hgid _ hG.ordNodup
  · exact hG.jobIdLt
  · exact hG.jobNodup
  · exact hG.pendUnassigned
  · intro j hj oid' hlink
    rcases hG.linkEx j hj oid' hlink with ⟨o, hoo, hoid⟩
    exact ⟨(if o.id == o₀.id then f o else o), List.mem_map.mpr ⟨o, hoo, rfl⟩, by rw [hgid]; exact hoid⟩
  · exact hG.pendUnique
  · intro o' ho'
    rcases List.mem_map.mp ho' with ⟨o, hoo, rfl⟩
    by_cases h : o.id == o₀.id
    · have : o = o₀ := heq o hoo (by simpa using h)
      subst this
      simp only [h, if_pos]
      intro hne
      rw [hid]
      exact hnop hne
    · simp only [h, if_neg]
      exact hG.assignedNoPend o hoo

/-- A job update that keeps id and link and only moves jobs out of
PENDING preserves Good. -/
theorem good_jobs_map {s : St} (g : Job → Job)
    (hgid : ∀ j, (g j).id = j.id)
    (hord : ∀ j, (g j).orderId = j.orderId)
    (hpend : ∀ j, (g j).status = JobStatus.PENDING → g j = j)
    (hG : Good s) : Good { s with jobs := s.jobs.map g } := by
  refine ⟨hG.ordInv, hG.ordIdLt, hG.ordNodup, ?_, ?_, ?_, ?_, ?_, ?_⟩
  · intro j' hj'
    rcases List.mem_map.mp hj' with ⟨j, hjj, rfl⟩
    rw [hgid]
    exact hG.jobIdLt j hjj
  · exact pairwise_ids_map (fun (j : Job) => j.id) _ hgid _ hG.jobNodup
  · intro j' hj' hp
    rcases List.mem_map.mp hj' with ⟨j, hjj, rfl⟩
    have h0 := hpend j hp
    rw [h0] at hp ⊢
    exact hG.pendUnassigned j hjj hp
  · intro j' hj' oid hlink
    rcases List.mem_map.mp hj' with ⟨j, hjj, rfl⟩
    rw [hord] at hlink
    exact hG.linkEx j hjj oid hlink
  · intro j' hj' k' hk' oid hpj hpk
    rcases List.mem_map.mp hj' with ⟨j, hjj, rfl⟩
    rcases List.mem_map.mp hk' with ⟨k, hkk, rfl⟩
    have hj0 := hpend j hpj.1
    have hk0 := hpend k hpk.1
    rw [hj0] at hpj ⊢
    rw [hk0] at hpk ⊢
    exact hG.pendUnique j hjj k hkk oid hpj hpk
  · intro o ho hne j' hj' hplj
    rcases List.mem_map.mp hj' with ⟨j, hjj, rfl⟩
    have hj0 := hpend j hplj.1
    rw [hj0] at hplj
    exact hG.assignedNoPend o ho hne j hjj hplj

/-- The claim transaction's job update (PENDING → RESERVED) preserves Good. -/
theorem good_jobs_claim {s : St} (jid did : Nat) (hG : Good s) :
    Good (updateJob s jid (fun k =>
      { k with status := JobStatus.RESERVED, assignedDroneId := some did })) := by
  refine good_jobs_map _ ?_ ?_ ?_ hG
  · intro j; by_cases h : j.id = jid <;> simp [h]
  · intro j; by_cases h : j.id = jid <;> simp [h]
  · intro j hp
    by_cases h : j.id = jid
    · simp [h] at hp
    · simp [h]

/-- `deliver`'s job completion (`updateMany` → COMPLETED) preserves Good. -/
theorem good_jobs_complete {s : St} (oid did : Nat) (hG : Good s) :
    Good { s with jobs := s.jobs.map (fun j =>
      if j.orderId == some oid ∧ j.assignedDroneId == some did then
        { j with status := JobStatus.COMPLETED }
      else j) } := by
  refine good_jobs_map _ ?_ ?_ ?_ hG
  · intro j
    by_cases h : j.orderId = some oid ∧ j.assignedDroneId = some did <;> simp [h]
  · intro j
    by_cases h : j.orderId = some oid ∧ j.assignedDroneId = some did <;> simp [h]
  · intro j hp
    by_cases h : j.orderId = some oid ∧ j.assignedDroneId = some did
    · simp [h] at hp
    · simp [h]

/-- Deleting jobs preserves Good. -/
theorem good_jobs_filter {s : St} (p : Job → Bool) (hG : Good s) :
    Good { s with jobs := s.jobs.filter p } := by
  refine ⟨hG.ordInv, hG.ordIdLt, hG.ordNodup, ?_, ?_, ?_, ?_, ?_, ?_⟩
  · intro j hj; exact hG.jobIdLt j (List.mem_of_mem_filter hj)
  · exact List.Pairwise.sublist (List.filter_sublist _) hG.jobNodup
  · intro j hj; exact hG.pendUnassigned j (List.mem_of_mem_filter hj)
  · intro j hj oid hl; exact hG.linkEx j (List.mem_of_mem_filter hj) oid hl
  · intro j hj k hk oid
    exact hG.pendUnique j (List.mem_of_mem_filter hj) k (List.mem_of_mem_filter hk) oid
  · intro o ho hne j hj; exact hG.assignedNoPend o ho hne j (List.mem_of_mem_filter hj)

theorem good_registerDrone (lat lng : Rat) {s : St} (hG : Good s) :
    Good (registerDrone lat lng s) :=
  @good_mono s (registerDrone lat lng s) rfl rfl (Nat.le_succ _) hG

theorem good_submitOrder (a b c d : Rat) (u : Nat) {s : St} (hG : Good s) :
    Good (stateOf (OrderService.submitOrder a b c d u s)) := by
  unfold OrderService.submitOrder
  rcases hv1 : validateCoordinates a b with e | v
  · exact hG
  · cases v
    dsimp only
    rcases hv2 : validateCoordinates c d with e | v
    · exact hG
    · cases v
      dsimp only
      by_cases hsame : a = c ∧ b = d
      · rw [if_pos hsame]; exact hG
      · rw [if_neg hsame]
        dsimp only [stateOf]
        refine ⟨?_, ?_, ?_, ?_, ?_, ?_, ?_, ?_, ?_⟩
        · intro o' ho'
          rcases List.mem_append.mp ho' with h | h
          · exact hG.ordInv o' h
          · have : o' = _ := List.mem_singleton.mp h
            subst this
            constructor
            · constructor
              · intro hx; exact absurd rfl hx
              · intro hx; rcases hx with hx | hx | hx | hx <;> simp at hx
            · intro hx; rcases hx with hx | hx <;> simp at hx
        · intro o' ho'
          rcases List.mem_append.mp ho' with h | h
          · have := hG.ordIdLt o' h; dsimp only; omega
          · have : o' = _ := List.mem_singleton.mp h
            subst this; dsimp only; omega
        · refine List.pairwise_append.mpr ⟨hG.ordNodup, List.pairwise_singleton _ _, ?_⟩
          intro x hx y hy
          have hx' := hG.ordIdLt x hx
          have : y = _ := List.mem_singleton.mp hy
          subst this; dsimp only; omega
        · intro j' hj'
          rcases List.mem_append.mp hj' with h | h
          · have := hG.jobIdLt j' h; dsimp only; omega
          · have : j' = _ := List.mem_singleton.mp h
            subst this; dsimp only; omega
        · refine List.pairwise_append.mpr ⟨hG.jobNodup, List.pairwise_singleton _ _, ?_⟩
          intro x hx y hy
          have hx' := hG.jobIdLt x hx
          have : y = _ := List.mem_singleton.mp hy
          subst this; dsimp only; omega
        · intro j' hj' hp
          rcases List.mem_append.mp hj' with h | h
          · exact hG.pendUnassigned j' h hp
          · have : j' = _ := List.mem_singleton.mp h
            subst this; rfl
        · intro j' hj' oid hl
          rcases List.mem_append.mp hj' with h | h
          · rcases hG.linkEx j' h oid hl with ⟨o, hoo, hoid⟩
            exact ⟨o, List.mem_append_left _ hoo, hoid⟩
          · have : j' = _ := List.mem_singleton.mp h
            subst this
            refine ⟨_, List.mem_append_right _ (List.mem_singleton_self _), ?_⟩
            dsimp only at hl ⊢
            exact Option.some.inj hl
        · intro j' hj' k' hk' oid hpj hpk
          rcases List.mem_append.mp hj' with hj1 | hj1 <;>
            rcases List.mem_append.mp hk' with hk1 | hk1
          · exact hG.pendUnique j' hj1 k' hk1 oid hpj hpk
          · have : k' = _ := List.mem_singleton.mp hk1
            subst this
            have hoid : oid = s.nextId := by
              have h2 := hpk.2; dsimp only at h2
              exact (Option.some.inj h2).symm
            subst hoid
            rcases hG.linkEx j' hj1 _ hpj.2 with ⟨o, hoo, hoid'⟩
            have := hG.ordIdLt o hoo
            omega
          · have : j' = _ := List.mem_singleton.mp hj1
            subst this
            have hoid : oid = s.nextId := by
              have h2 := hpj.2; dsimp only at h2
              exact (Option.some.inj h2).symm
            subst hoid
            rcases hG.linkEx k' hk1 _ hpk.2 with ⟨o, hoo, hoid'⟩
            have := hG.ordIdLt o hoo
            omega
          · have h1 : j' = _ := List.mem_singleton.mp hj1
            have h2 : k' = _ := List.mem_singleton.mp hk1
            rw [h1, h2]
        · intro o' ho' hne j' hj' hplj
          rcases List.mem_append.mp ho' with h | h
          · rcases List.mem_append.mp hj' with h1 | h1
            · exact hG.assignedNoPend o' h hne j' h1 hplj
            · have : j' = _ := List.mem_singleton.mp h1
              subst this
              have := hG.ordIdLt o' h
              have h2 := hplj.2
              dsimp only at h2
              have h3 := Option.some.inj h2
              omega
          · have : o' = _ := List.mem_singleton.mp h
            subst this
            exact absurd rfl hne

theorem good_withdrawOrder (oid uid : Nat) {s : St} (hG : Good s) :
    Good (stateOf (OrderService.withdrawOrder oid uid s)) := by
  unfold OrderService.withdrawOrder
  rcases hfo : findOrder s oid with _ | o
  · exact hG
  · dsimp only
    by_cases h1 : o.createdBy ≠ uid
    · rw [if_pos h1]; exact hG
    · rw [if_neg h1]
      by_cases h2 : o.status ≠ OrderStatus.PENDING
      · rw [if_pos h2]; exact hG
      · rw [if_neg h2]
        by_cases h3 : o.assignedDroneId ≠ none
        · rw [if_pos h3]; exact hG
        · rw [if_neg h3]
          push_neg at h2 h3
          dsimp only [stateOf]
          rcases findOrder_mem hfo with ⟨hom, hoid⟩
          have hgood1 : Good (updateOrder s oid (fun oo =>
              { oo with status := OrderStatus.WITHDRAWN })) := by
            rw [← hoid]
            refine good_update_order_found hom _ (by intro oo; rfl) ?_ ?_ hG
            · constructor
              · rw [h3] at *
                constructor
                · intro hx; exact absurd rfl hx
                · intro hx; rcases hx with hx | hx | hx | hx <;> simp at hx
              · intro hx; rcases hx with hx | hx <;> simp at hx
            · intro hne
              rw [h3] at hne
              exact absurd rfl hne
          exact good_jobs_filter _ hgood1

theorem good_markDroneFixed (did : Nat) {s : St} (hG : Good s) :
    Good (stateOf (DroneService.markDroneFixed did s)) := by
  unfold DroneService.markDroneFixed
  rcases hfd : findDrone s did with _ | d
  · exact hG
  · dsimp only
    exact @good_mono s _ rfl rfl (le_refl _) hG

theorem good_updateOrderOrigin (oid : Nat) (lat lng : Rat) {s : St} (hG : Good s) :
    Good (stateOf (OrderService.updateOrderOrigin oid lat lng s)) := by
  unfold OrderService.updateOrderOrigin
  rcases hv : validateCoordinates lat lng with e | v
  · exact hG
  · cases v
    dsimp only
    rcases hfo : findOrder s oid with _ | o
    · exact hG
    · dsimp only [stateOf]
      refine good_update_order_benign oid _ ?_ ?_ ?_ ?_ ?_ hG
      · intro oo; rfl
      · intro oo; rfl
      · intro oo; rfl
      · intro oo; left; rfl
      · intro oo; left; rfl

theorem good_updateOrderDestination (oid : Nat) (lat lng : Rat) {s : St} (hG : Good s) :
    Good (stateOf (OrderService.updateOrderDestination oid lat lng s)) := by
  unfold OrderService.updateOrderDestination
  rcases hv : validateCoordinates lat lng with e | v
  · exact hG
  · cases v
    dsimp only
    rcases hfo : findOrder s oid with _ | o
    · exact hG
    · dsimp only [stateOf]
      refine good_update_order_benign oid _ ?_ ?_ ?_ ?_ ?_ hG
      · intro oo; rfl
      · intro oo; rfl
      · intro oo; rfl
      · intro oo; left; rfl
      · intro oo; left; rfl

theorem good_updateDrone {s : St} (did : Nat) (f : Drone → Drone) (hG : Good s) :
    Good (updateDrone s did f) :=
  @good_mono s _ rfl rfl (le_refl _) hG

theorem good_updateLocation (did : Nat) (lat lng : Rat) {s : St} (hG : Good s) :
    Good (stateOf (DroneService.updateLocation did lat lng s)) := by
  unfold DroneService.updateLocation
  rcases hv : validateCoordinates lat lng with e | v
  · exact hG
  · cases v
    dsimp only
    rcases hfd : findDrone s did with _ | d
    · exact hG
    · dsimp only
      rcases hao : findAssignedOrder s did with _ | o
      · dsimp only
        split <;> exact good_updateDrone _ _ hG
      · dsimp only
        by_cases hst : o.status = OrderStatus.IN_TRANSIT
        · rw [if_pos hst]
          dsimp only
          have hg1 : Good (updateOrder s o.id (fun oo =>
              { oo with
                currentLat := some lat
                currentLng := some lng
                eta := some (calculateETAFromLocation lat lng
                  o.destinationLat o.destinationLng DRONE_AVERAGE_SPEED_KMH) })) := by
            refine good_update_order_benign o.id _ ?_ ?_ ?_ ?_ ?_ hG
            · intro oo; rfl
            · intro oo; rfl
            · intro oo; rfl
            · intro oo; right; intro hx; cases hx
            · intro oo; right; intro hx; cases hx
          split <;> exact good_updateDrone _ _ hg1
        · rw [if_neg hst]
          dsimp only
          split <;> exact good_updateDrone _ _ hG

theorem good_grabOrder (oid did : Nat) {s : St} (hG : Good s) :
    Good (stateOf (DroneService.grabOrder oid did s)) := by
  unfold DroneService.grabOrder
  rcases hfd : findDrone s did with _ | d
  · exact hG
  · dsimp only
    by_cases hb : d.isBroken
    · rw [if_pos hb]; exact hG
    · rw [if_neg hb]
      rcases hfo : findOrder s oid with _ | o
      · exact hG
      · dsimp only
        by_cases h1 : o.assignedDroneId ≠ some did
        · rw [if_pos h1]; exact hG
        · rw [if_neg h1]
          push_neg at h1
          by_cases h2 : o.status ≠ OrderStatus.PENDING ∧ o.status ≠ OrderStatus.ASSIGNED
          · rw [if_pos h2]; exact hG
          · rw [if_neg h2]
            dsimp only [stateOf]
            apply good_updateDrone
            rcases findOrder_mem hfo with ⟨hom, hoid⟩
            rw [← hoid]
            refine good_update_order_found hom _ (fun oo => rfl) ?_ ?_ hG
            · constructor
              · constructor
                · intro _; right; left; rfl
                · intro _; rw [h1]; simp
              · intro _
                exact ⟨by simp, by simp⟩
            · intro _
              exact hG.assignedNoPend o hom (by rw [h1]; simp)

theorem good_markOrderDelivered (oid did : Nat) {s : St} (hG : Good s) :
    Good (stateOf (DroneService.markOrderDelivered oid did s)) := by
  unfold DroneService.markOrderDelivered
  rcases hfd : findDrone s did with _ | d0
  · exact hG
  · dsimp only
    rcases hfo : findOrder s oid with _ | o
    · exact hG
    · dsimp only
      by_cases h1 : o.assignedDroneId ≠ some did
      · rw [if_pos h1]; exact hG
      · rw [if_neg h1]
        push_neg at h1
        dsimp only [stateOf]
        apply good_updateDrone
        apply good_jobs_complete
        rcases findOrder_mem hfo with ⟨hom, hoid⟩
        rw [← hoid]
        refine good_update_order_found hom _ (fun oo => rfl) ?_ ?_ hG
        · constructor
          · constructor
            · intro _; right; right; left; rfl
            · intro _; rw [h1]; simp
          · intro _
            exact ⟨by simp, by simp⟩
        · intro _
          exact hG.assignedNoPend o hom (by rw [h1]; simp)

theorem good_markOrderFailed (oid did : Nat) {s : St} (hG : Good s) :
    Good (stateOf (DroneService.markOrderFailed oid did s)) := by
  unfold DroneService.markOrderFailed
  rcases hfd : findDrone s did with _ | d0
  · exact hG
  · dsimp only
    rcases hfo : findOrder s oid with _ | o
    · exact hG
    · dsimp only
      by_cases h1 : o.assignedDroneId ≠ some did
      · rw [if_pos h1]; exact hG
      · rw [if_neg h1]
        push_neg at h1
        dsimp only [stateOf]
        apply good_updateDrone
        rcases findOrder_mem hfo with ⟨hom, hoid⟩
        rw [← hoid]
        refine good_update_order_found hom _ (fun oo => rfl) ?_ ?_ hG
        · constructor
          · constructor
            · intro _; right; right; right; rfl
            · intro _; rw [h1]; simp
          · intro hx; rcases hx with hx | hx <;> simp at hx
        · intro _
          exact hG.assignedNoPend o hom (by rw [h1]; simp)

theorem good_markDroneBroken (did : Nat) {s : St} (hG : Good s) :
    Good (stateOf (DroneService.markDroneBroken did s)) := by
  unfold DroneService.markDroneBroken
  rcases hfd : findDrone s did with _ | d
  · exact hG
  · dsimp only
    by_cases hb : d.isBroken
    · rw [if_pos hb]; exact hG
    · rw [if_neg hb]
      dsimp only [stateOf]
      apply good_updateDrone
      rcases hao : findAssignedOrder s did with _ | o
      · exact hG
      · rcases findAssignedOrder_mem hao with ⟨hom, hoas⟩
        have hne : o.assignedDroneId ≠ none := by rw [hoas]; simp
        refine ⟨?_, ?_, ?_, ?_, ?_, ?_, ?_, ?_, ?_⟩
        · intro x' hx'
          rcases List.mem_map.mp hx' with ⟨x, hxm, rfl⟩
          by_cases hx : x.id = o.id
          · have hxe : x = o :=
              eq_of_mem_ids (fun (y : Order) => y.id) _ hG.ordNodup x hxm o hom hx
            subst hxe
            simp only [beq_self_eq_true, if_pos]
            constructor
            · constructor
              · intro hc; exact absurd rfl hc
              · intro hc; rcases hc with hc | hc | hc | hc <;> simp at hc
            · intro hc; rcases hc with hc | hc <;> simp at hc
          · have hxb : (x.id == o.id) = false := by simp [hx]
            simp only [hxb, Bool.false_eq_true, if_neg, if_false]
            exact hG.ordInv x hxm
        · intro x' hx'
          rcases List.mem_map.mp hx' with ⟨x, hxm, rfl⟩
          have hlt := hG.ordIdLt x hxm
          by_cases hx : x.id = o.id
          · simp only [hx, beq_self_eq_true, if_pos, updateOrder_nextId]
            omega
          · have hxb : (x.id == o.id) = false := by simp [hx]
            simp only [hxb, Bool.false_eq_true, if_neg, if_false, updateOrder_nextId]
            omega
        · refine pairwise_ids_map (fun (y : Order) => y.id) _ ?_ _ hG.ordNodup
          intro x; by_cases hx : x.id = o.id <;> simp [hx]
        · intro j hj
          rcases List.mem_append.mp hj with h | h
          · have := hG.jobIdLt j h
            simp only [updateOrder_nextId]
            omega
          · have : j = handoffJob s d o := List.mem_singleton.mp h
            subst this
            simp only [updateOrder_nextId]
            dsimp only [handoffJob]
            omega
        · refine List.pairwise_append.mpr ⟨hG.jobNodup, List.pairwise_singleton _ _, ?_⟩
          intro x hx y hy
          have hx' := hG.jobIdLt x hx
          have : y = handoffJob s d o := List.mem_singleton.mp hy
          subst this
          dsimp only [handoffJob]
          omega
        · intro j hj hp
          rcases List.mem_append.mp hj with h | h
          · exact hG.pendUnassigned j h hp
          · have : j = handoffJob s d o := List.mem_singleton.mp h
            subst this; rfl
        · intro j hj oid' hl
          rcases List.mem_append.mp hj with h | h
          · rcases hG.linkEx j h oid' hl with ⟨x, hxm, hxid⟩
            refine ⟨(if x.id == o.id then _ else x), List.mem_map.mpr ⟨x, hxm, rfl⟩, ?_⟩
            by_cases hx : x.id = o.id <;> simp [hx]
            · omega
            · exact hxid
          · have : j = handoffJob s d o := List.mem_singleton.mp h
            subst this
            dsimp only [handoffJob] at hl
            have hoid' : oid' = o.id := (Option.some.inj hl).symm
            subst hoid'
            refine ⟨_, List.mem_map.mpr ⟨o, hom, rfl⟩, ?_⟩
            simp
        · intro j hj k hk oid' hpj hpk
          rcases List.mem_append.mp hj with h | h <;> rcases List.mem_append.mp hk with h' | h'
          · exact hG.pendUnique j h k h' oid' hpj hpk
          · have : k = handoffJob s d o := List.mem_singleton.mp h'
            subst this
            have hk2 := hpk.2
            dsimp only [handoffJob] at hk2
            have : oid' = o.id := (Option.some.inj hk2).symm
            subst this
            exact absurd hpj (hG.assignedNoPend o hom hne j h)
          · have : j = handoffJob s d o := List.mem_singleton.mp h
            subst this
            have hj2 := hpj.2
            dsimp only [handoffJob] at hj2
            have : oid' = o.id := (Option.some.inj hj2).symm
            subst this
            exact absurd hpk (hG.assignedNoPend o hom hne k h')
          · have e1 : j = handoffJob s d o := List.mem_singleton.mp h
            have e2 : k = handoffJob s d o := List.mem_singleton.mp h'
            rw [e1, e2]
        · intro x' hx' hxne j hj hplj
          rcases List.mem_map.mp hx' with ⟨x, hxm, rfl⟩
          by_cases hx : x.id = o.id
          · have hxe : x = o :=
              eq_of_mem_ids (fun (y : Order) => y.id) _ hG.ordNodup x hxm o hom hx
            subst hxe
            simp only [beq_self_eq_true, if_pos] at hxne
            exact absurd rfl hxne
          · have hxb : (x.id == o.id) = false := by simp [hx]
            simp only [hxb, Bool.false_eq_true, if_neg, if_false] at hxne hplj ⊢
            rcases List.mem_append.mp hj with h | h
            · exact hG.assignedNoPend x hxm hxne j h hplj
            · have : j = handoffJob s d o := List.mem_singleton.mp h
              subst this
              have hj2 := hplj.2
              dsimp only [handoffJob] at hj2
              exact hx (Option.some.inj hj2).symm

theorem good_reserveJob (did : Nat) {s : St} (hG : Good s) :
    Good (stateOf (DroneService.reserveJob did s)) := by
  unfold DroneService.reserveJob
  rcases hfd : findDrone s did with _ | d
  · exact hG
  · dsimp only
    by_cases hb : d.isBroken
    · rw [if_pos hb]; exact hG
    · rw [if_neg hb]
      by_cases hbusy : d.status = DroneStatus.BUSY
      · rw [if_pos hbusy]; exact hG
      · rw [if_neg hbusy]
        rcases hres : JobService.reserveJob did s with _ | p
        · exact hG
        · rcases p with ⟨rj, s1⟩
          dsimp only
          rcases reserveLoop_spec hres with ⟨jid, j0, hfj, hp0, hrj, hs1⟩
          rcases findJob_mem hfj with ⟨hj0m, hj0id⟩
          have hGs1 : Good s1 := by rw [hs1]; exact good_jobs_claim jid did hG
          rcases hoid : rj.orderId with _ | oid
          · exact hGs1
          · dsimp only
            rcases hfo1 : findOrder s1 oid with _ | o1
            · exact hGs1
            · dsimp only [stateOf]
              apply good_updateDrone
              rcases findOrder_mem hfo1 with ⟨ho1m, ho1id⟩
              rw [← ho1id]
              refine good_update_order_found ho1m _ (fun oo => rfl) ?_ ?_ hGs1
              · constructor
                · constructor
                  · intro _; left; rfl
                  · intro _; simp
                · intro hx; rcases hx with hx | hx <;> simp at hx
              · intro _
                intro j' hj' hplj
                rw [hs1, updateJob_jobs] at hj'
                rcases List.mem_map.mp hj' with ⟨j, hjm, rfl⟩
                have hj0oid : j0.orderId = some oid := by
                  rw [hrj] at hoid
                  exact hoid
                by_cases hx : j.id = jid
                · simp only [hx, beq_self_eq_true, if_pos] at hplj
                  have := hplj.1
                  simp at this
                · have hxb : (j.id == jid) = false := by simp [hx]
                  simp only [hxb, Bool.false_eq_true, if_neg, if_false] at hplj
                  have hplj0 : pl o1.id j0 := by
                    refine ⟨hp0, ?_⟩
                    rw [hj0oid, ho1id]
                  have := hG.pendUnique j hjm j0 hj0m o1.id hplj hplj0
                  rw [this] at hx
                  exact hx hj0id

theorem good_applyOp (op : Op) {s : St} (hG : Good s) : Good (applyOp op s) := by
  cases op with
  | submit a b c d u => exact good_tick (good_submitOrder a b c d u hG)
  | withdraw o u => exact good_tick (good_withdrawOrder o u hG)
  | reserve d => exact good_tick (good_reserveJob d hG)
  | grab o d => exact good_tick (good_grabOrder o d hG)
  | deliver o d => exact good_tick (good_markOrderDelivered o d hG)
  | fail o d => exact good_tick (good_markOrderFailed o d hG)
  | markBroken d => exact good_tick (good_markDroneBroken d hG)
  | markFixed d => exact good_tick (good_markDroneFixed d hG)
  | updateLoc d la ln => exact good_tick (good_updateLocation d la ln hG)
  | adminOrigin o la ln => exact good_tick (good_updateOrderOrigin o la ln hG)
  | adminDest o la ln => exact good_tick (good_updateOrderDestination o la ln hG)
  | register la ln => exact good_tick (good_registerDrone la ln hG)

theorem good_init : Good St.init := by
  refine ⟨?_, ?_, ?_, ?_, ?_, ?_, ?_, ?_, ?_⟩ <;> simp [St.init]

theorem good_foldl (l : List Op) : ∀ s : St, Good s →
    Good (l.foldl (fun s op => applyOp op s) s) := by
  induction l with
  | nil => intro s hs; exact hs
  | cons op t ih =>
    intro s hs
    exact ih _ (good_applyOp op hs)

/-- Every state reachable from the empty store satisfies the invariant. -/
theorem good_reach (ops : List Op) : Good (reach ops) :=
  good_foldl ops St.init good_init

/-! ## Status edges of a single step -/

theorem statusOf_congr {x y : St} (h : x.orders = y.orders) (oid : Nat) :
    statusOf x oid = statusOf y oid := by
  unfold statusOf findOrder
  rw [h]

theorem statusOf_updateOrder (s : St) (oid' : Nat) (f : Order → Order)
    (hf : ∀ o, (f o).id = o.id) (oid : Nat) :
    statusOf (updateOrder s oid' f) oid =
      (findOrder s oid).map (fun o => if o.id == oid' then (f o).status else o.status) := by
  unfold statusOf
  rw [findOrder_updateOrder s oid' f hf oid, Option.map_map]
  rcases h : findOrder s oid with _ | o
  · rfl
  · by_cases ho : o.id = oid' <;> simp [Function.comp, ho]

/-- From a known status before, and the status after an update keyed to a
member `o₀`, a changed status pins the transition to `o₀`. -/
theorem edge_of_update {s : St} {o₀ : Order} (hmem : o₀ ∈ s.orders)
    (hnd : s.orders.Pairwise (fun x y => x.id ≠ y.id)) (f : Order → Order)
    (hf : ∀ o, (f o).id = o.id) {X : St} {k : Nat} (hk : o₀.id = k)
    (hXo : X.orders = (updateOrder s k f).orders)
    {oid : Nat} {a b : OrderStatus}
    (ha : statusOf s oid = some a) (hb : statusOf X oid = some b) (hne : a ≠ b) :
    a = o₀.status ∧ b = (f o₀).status := by
  subst hk
  rcases Option.map_eq_some'.mp ha with ⟨oa, hfa, hsa⟩
  have hb' : statusOf (updateOrder s o₀.id f) oid = some b := by
    rw [← statusOf_congr hXo oid]; exact hb
  rw [statusOf_updateOrder s o₀.id f hf oid, hfa] at hb'
  rcases findOrder_mem hfa with ⟨ham, haid⟩
  by_cases h : oa.id = o₀.id
  · have hae : oa = o₀ := eq_of_mem_ids (fun (y : Order) => y.id) _ hnd oa ham o₀ hmem h
    subst hae
    simp only [h, beq_self_eq_true, if_pos, Option.map_some'] at hb'
    exact ⟨hsa.symm, (Option.some.inj hb').symm⟩
  · have hxb : (oa.id == o₀.id) = false := by simp [h]
    simp only [hxb, Bool.false_eq_true, if_neg, if_false, Option.map_some'] at hb'
    exact absurd (hsa.symm.trans (Option.some.inj hb')) hne

/-- Facts ruled in by the invariant: an order with a non-null assignee has
one of the four assigned statuses. -/
theorem status_assigned_of_inv {o : Order} (hI : OrderInv o)
    (h : o.assignedDroneId ≠ none) :
    o.status = OrderStatus.ASSIGNED ∨ o.status = OrderStatus.IN_TRANSIT ∨
      o.status = OrderStatus.DELIVERED ∨ o.status = OrderStatus.FAILED :=
  hI.1.mp h

/-- And one with a null assignee is PENDING or WITHDRAWN. -/
theorem status_unassigned_of_inv {o : Order} (hI : OrderInv o)
    (h : o.assignedDroneId = none) :
    o.status = OrderStatus.PENDING ∨ o.status = OrderStatus.WITHDRAWN := by
  by_contra hc
  push_neg at hc
  have := hI.1.mpr
  cases hs : o.status with
  | PENDING => exact hc.1 hs
  | WITHDRAWN => exact hc.2 hs
  | ASSIGNED => exact absurd h (hI.1.mpr (Or.inl hs))
  | IN_TRANSIT => exact absurd h (hI.1.mpr (Or.inr (Or.inl hs)))
  | DELIVERED => exact absurd h (hI.1.mpr (Or.inr (Or.inr (Or.inl hs))))
  | FAILED => exact absurd h (hI.1.mpr (Or.inr (Or.inr (Or.inr hs))))

theorem statusOf_tick (s : St) (oid : Nat) : statusOf (tick s) oid = statusOf s oid := rfl

theorem no_change {s X : St} (h : X.orders = s.orders) {oid : Nat} {a b : OrderStatus}
    (ha : statusOf s oid = some a) (hb : statusOf X oid = some b) : a = b := by
  rw [statusOf_congr h oid, ha] at hb
  exact Option.some.inj hb

theorem findOrder_append {s X : St} {oid : Nat} {oa : Order} (l : List Order)
    (h : findOrder s oid = some oa) (hX : X.orders = s.orders ++ l) :
    findOrder X oid = some oa := by
  unfold findOrder at *
  rw [hX, List.find?_append, h]
  rfl

theorem no_change_append {s X : St} (l : List Order) (h : X.orders = s.orders ++ l)
    {oid : Nat} {a b : OrderStatus}
    (ha : statusOf s oid = some a) (hb : statusOf X oid = some b) : a = b := by
  rcases Option.map_eq_some'.mp ha with ⟨oa, hfa, hsa⟩
  have hX := findOrder_append l hfa h
  unfold statusOf at hb
  rw [hX] at hb
  simp only [Option.map_some'] at hb
  exact hsa.symm.trans (Option.some.inj hb)

/-- On a Good state, one operation changes an order's status only along an
allowed edge. -/
theorem step_edges (op : Op) {s : St} (hG : Good s) (oid : Nat) (a b : OrderStatus)
    (ha : statusOf s oid = some a) (hb : statusOf (applyOp op s) oid = some b)
    (hne : a ≠ b) : allowedEdge a b := by
  cases op with
  | submit x y z w u =>
    have hb' : statusOf (stateOf (OrderService.submitOrder x y z w u s)) oid = some b := hb
    clear hb
    unfold OrderService.submitOrder at hb'
    revert hb'
    rcases hv1 : validateCoordinates x y with e | v
    · intro hb'; exact absurd (no_change rfl ha hb') hne
    · cases v
      dsimp only
      rcases hv2 : validateCoordinates z w with e | v
      · intro hb'; exact absurd (no_change rfl ha hb') hne
      · cases v
        dsimp only
        by_cases hsame : x = z ∧ y = w
        · rw [if_pos hsame]; intro hb'; exact absurd (no_change rfl ha hb') hne
        · rw [if_neg hsame]; intro hb'
          exact absurd (no_change_append _ rfl ha hb') hne
  | withdraw oid' u =>
    have hb' : statusOf (stateOf (OrderService.withdrawOrder oid' u s)) oid = some b := hb
    clear hb
    unfold OrderService.withdrawOrder at hb'
    revert hb'
    rcases hfo : findOrder s oid' with _ | o₀
    · intro hb'; exact absurd (no_change rfl ha hb') hne
    · dsimp only
      by_cases h1 : o₀.createdBy ≠ u
      · rw [if_pos h1]; intro hb'; exact absurd (no_change rfl ha hb') hne
      · rw [if_neg h1]
        by_cases h2 : o₀.status ≠ OrderStatus.PENDING
        · rw [if_pos h2]; intro hb'; exact absurd (no_change rfl ha hb') hne
        · rw [if_neg h2]
          by_cases h3 : o₀.assignedDroneId ≠ none
          · rw [if_pos h3]; intro hb'; exact absurd (no_change rfl ha hb') hne
          · rw [if_neg h3]; intro hb'
            push_neg at h2
            rcases findOrder_mem hfo with ⟨hom, hoid⟩
            have hedge := edge_of_update hom hG.ordNodup
              (fun oo => { oo with status := OrderStatus.WITHDRAWN })
              (fun oo => rfl) hoid rfl ha hb' hne
            rcases hedge with ⟨hA, hB⟩
            right; right; right; right
            exact ⟨by rw [hA, h2], by rw [hB]⟩
  | reserve d =>
    have hb' : statusOf (stateOf (DroneService.reserveJob d s)) oid = some b := hb
    clear hb
    unfold DroneService.reserveJob at hb'
    revert hb'
    rcases hfd : findDrone s d with _ | dr
    · intro hb'; exact absurd (no_change rfl ha hb') hne
    · dsimp only
      by_cases hbk : dr.isBroken
      · rw [if_pos hbk]; intro hb'; exact absurd (no_change rfl ha hb') hne
      · rw [if_neg hbk]
        by_cases hbusy : dr.status = DroneStatus.BUSY
        · rw [if_pos hbusy]; intro hb'; exact absurd (no_change rfl ha hb') hne
        · rw [if_neg hbusy]
          rcases hres : JobService.reserveJob d s with _ | p
          · intro hb'; exact absurd (no_change rfl ha hb') hne
          · rcases p with ⟨rj, s1⟩
            dsimp only
            rcases reserveLoop_spec hres with ⟨jid, j0, hfj, hp0, hrj, hs1⟩
            rcases findJob_mem hfj with ⟨hj0m, hj0id⟩
            have hords1 : s1.orders = s.orders := by rw [hs1]; rfl
            rcases hoid2 : rj.orderId with _ | oid'
            · intro hb'; exact absurd (no_change hords1 ha hb') hne
            · dsimp only
              rcases hfo1 : findOrder s1 oid' with _ | o1
              · intro hb'; exact absurd (no_change hords1 ha hb') hne
              · dsimp only
                intro hb'
                rcases findOrder_mem hfo1 with ⟨ho1m, ho1id⟩
                have ho1s : o1 ∈ s.orders := by rw [← hords1]; exact ho1m
                have hj0oid : j0.orderId = some oid' := by rw [hrj] at hoid2; exact hoid2
                have hassigned : o1.assignedDroneId = none := by
                  by_contra hcon
                  exact hG.assignedNoPend o1 ho1s hcon j0 hj0m ⟨hp0, by rw [hj0oid, ho1id]⟩
                have hedge := edge_of_update ho1s hG.ordNodup
                  (fun oo => { oo with status := OrderStatus.ASSIGNED, assignedDroneId := some d })
                  (fun oo => rfl) ho1id (by rw [hs1]; rfl) ha hb' hne
                rcases hedge with ⟨hA, hB⟩
                rcases status_unassigned_of_inv (hG.ordInv o1 ho1s) hassigned with hs | hs
                · left; exact ⟨by rw [hA, hs], by rw [hB]⟩
                · right; left; exact ⟨by rw [hA, hs], by rw [hB]⟩
  | grab oid' d =>
    have hb' : statusOf (stateOf (DroneService.grabOrder oid' d s)) oid = some b := hb
    clear hb
    unfold DroneService.grabOrder at hb'
    revert hb'
    rcases hfd : findDrone s d with _ | dr
    · intro hb'; exact absurd (no_change rfl ha hb') hne
    · dsimp only
      by_cases hbk : dr.isBroken
      · rw [if_pos hbk]; intro hb'; exact absurd (no_change rfl ha hb') hne
      · rw [if_neg hbk]
        rcases hfo : findOrder s oid' with _ | o₀
        · intro hb'; exact absurd (no_change rfl ha hb') hne
        · dsimp only
          by_cases h1 : o₀.assignedDroneId ≠ some d
          · rw [if_pos h1]; intro hb'; exact absurd (no_change rfl ha hb') hne
          · rw [if_neg h1]
            push_neg at h1
            by_cases h2 : o₀.status ≠ OrderStatus.PENDING ∧ o₀.status ≠ OrderStatus.ASSIGNED
            · rw [if_pos h2]; intro hb'; exact absurd (no_change rfl ha hb') hne
            · rw [if_neg h2]; intro hb'
              push_neg at h2
              rcases findOrder_mem hfo with ⟨hom, hoid⟩
              have hedge := edge_of_update hom hG.ordNodup
                (fun oo => { oo with
                  status := OrderStatus.IN_TRANSIT
                  currentLat := some o₀.originLat
                  currentLng := some o₀.originLng
                  eta := some (calculateETAFromLocation dr.currentLat dr.currentLng
                    o₀.destinationLat o₀.destinationLng DRONE_AVERAGE_SPEED_KMH) })
                (fun oo => rfl) hoid rfl ha hb' hne
              rcases hedge with ⟨hA, hB⟩
              have hs4 := status_assigned_of_inv (hG.ordInv o₀ hom) (by rw [h1]; simp)
              have hsA : o₀.status = OrderStatus.ASSIGNED := by
                rcases hs4 with hs | hs | hs | hs
                · exact hs
                · have := h2 (by simp [hs]); rw [hs] at this; simp at this
                · have := h2 (by simp [hs]); rw [hs] at this; simp at this
                · have := h2 (by simp [hs]); rw [hs] at this; simp at this
              right; right; left
              exact ⟨by rw [hA, hsA], by rw [hB]⟩
  | deliver oid' d =>
    have hb' : statusOf (stateOf (DroneService.markOrderDelivered oid' d s)) oid = some b := hb
    clear hb
    unfold DroneService.markOrderDelivered at hb'
    revert hb'
    rcases hfd : findDrone s d with _ | dr
    · intro hb'; exact absurd (no_change rfl ha hb') hne
    · dsimp only
      rcases hfo : findOrder s oid' with _ | o₀
      · intro hb'; exact absurd (no_change rfl ha hb') hne
      · dsimp only
        by_cases h1 : o₀.assignedDroneId ≠ some d
        · rw [if_pos h1]; intro hb'; exact absurd (no_change rfl ha hb') hne
        · rw [if_neg h1]; intro hb'
          push_neg at h1
          rcases findOrder_mem hfo with ⟨hom, hoid⟩
          have hedge := edge_of_update hom hG.ordNodup
            (fun oo => { oo with
              status := OrderStatus.DELIVERED
              currentLat := some o₀.destinationLat
              currentLng := some o₀.destinationLng
              eta := none })
            (fun oo => rfl) hoid rfl ha hb' hne
          rcases hedge with ⟨hA, hB⟩
          have hs4 := status_assigned_of_inv (hG.ordInv o₀ hom) (by rw [h1]; simp)
          right; right; right; left
          refine ⟨?_, Or.inl (by rw [hB])⟩
          rw [hA]
          exact hs4
  | fail oid' d =>
    have hb' : statusOf (stateOf (DroneService.markOrderFailed oid' d s)) oid = some b := hb
    clear hb
    unfold DroneService.markOrderFailed at hb'
    revert hb'
    rcases hfd : findDrone s d with _ | dr
    · intro hb'; exact absurd (no_change rfl ha hb') hne
    · dsimp only
      rcases hfo : findOrder s oid' with _ | o₀
      · intro hb'; exact absurd (no_change rfl ha hb') hne
      · dsimp only
        by_cases h1 : o₀.assignedDroneId ≠ some d
        · rw [if_pos h1]; intro hb'; exact absurd (no_change rfl ha hb') hne
        · rw [if_neg h1]; intro hb'
          push_neg at h1
          rcases findOrder_mem hfo with ⟨hom, hoid⟩
          have hedge := edge_of_update hom hG.ordNodup
            (fun oo => { oo with status := OrderStatus.FAILED, eta := none })
            (fun oo => rfl) hoid rfl ha hb' hne
          rcases hedge with ⟨hA, hB⟩
          have hs4 := status_assigned_of_inv (hG.ordInv o₀ hom) (by rw [h1]; simp)
          right; right; right; left
          refine ⟨?_, Or.inr (Or.inl (by rw [hB]))⟩
          rw [hA]
          exact hs4
  | markBroken d =>
    have hb' : statusOf (stateOf (DroneService.markDroneBroken d s)) oid = some b := hb
    clear hb
    unfold DroneService.markDroneBroken at hb'
    revert hb'
    rcases hfd : findDrone s d with _ | dr
    · intro hb'; exact absurd (no_change rfl ha hb') hne
    · dsimp only
      by_cases hbk : dr.isBroken
      · rw [if_pos hbk]; intro hb'; exact absurd (no_change rfl ha hb') hne
      · rw [if_neg hbk]
        rcases hao : findAssignedOrder s d with _ | o₀
        · intro hb'; exact absurd (no_change rfl ha hb') hne
        · dsimp only
          intro hb'
          rcases findAssignedOrder_mem hao with ⟨hom, hoas⟩
          have hedge := edge_of_update hom hG.ordNodup
            (fun oo => { oo with
              status := OrderStatus.PENDING
              assignedDroneId := none
              currentLat := some dr.currentLat
              currentLng := some dr.currentLng
              eta := none })
            (fun oo => rfl) rfl rfl ha hb' hne
          rcases hedge with ⟨hA, hB⟩
          have hs4 := status_assigned_of_inv (hG.ordInv o₀ hom) (by rw [hoas]; simp)
          right; right; right; left
          refine ⟨?_, Or.inr (Or.inr (by rw [hB]))⟩
          rw [hA]
          exact hs4
  | markFixed d =>
    have hb' : statusOf (stateOf (DroneService.markDroneFixed d s)) oid = some b := hb
    clear hb
    unfold DroneService.markDroneFixed at hb'
    revert hb'
    rcases hfd : findDrone s d with _ | dr
    · intro hb'; exact absurd (no_change rfl ha hb') hne
    · dsimp only
      intro hb'; exact absurd (no_change rfl ha hb') hne
  | updateLoc d la ln =>
    have hb' : statusOf (stateOf (DroneService.updateLocation d la ln s)) oid = some b := hb
    clear hb
    unfold DroneService.updateLocation at hb'
    revert hb'
    rcases hv : validateCoordinates la ln with e | v
    · intro hb'; exact absurd (no_change rfl ha hb') hne
    · cases v
      dsimp only
      rcases hfd : findDrone s d with _ | dr
      · intro hb'; exact absurd (no_change rfl ha hb') hne
      · dsimp only
        rcases hao : findAssignedOrder s d with _ | o₀
        · dsimp only
          split <;> (intro hb'; exact absurd (no_change rfl ha hb') hne)
        · dsimp only
          by_cases hst : o₀.status = OrderStatus.IN_TRANSIT
          · rw [if_pos hst]
            dsimp only
            split <;>
            · intro hb'
              rcases findAssignedOrder_mem hao with ⟨hom, hoas⟩
              have hedge := edge_of_update hom hG.ordNodup
                (fun oo => { oo with
                  currentLat := some la
                  currentLng := some ln
                  eta := some (calculateETAFromLocation la ln
                    o₀.destinationLat o₀.destinationLng DRONE_AVERAGE_SPEED_KMH) })
                (fun oo => rfl) rfl rfl ha hb' hne
              rcases hedge with ⟨hA, hB⟩
              exact absurd (hA.trans hB.symm) hne
          · rw [if_neg hst]
            dsimp only
            split <;> (intro hb'; exact absurd (no_change rfl ha hb') hne)
  | adminOrigin oid' la ln =>
    have hb' : statusOf (stateOf (OrderService.updateOrderOrigin oid' la ln s)) oid = some b := hb
    clear hb
    unfold OrderService.updateOrderOrigin at hb'
    revert hb'
    rcases hv : validateCoordinates la ln with e | v
    · intro hb'; exact absurd (no_change rfl ha hb') hne
    · cases v
      dsimp only
      rcases hfo : findOrder s oid' with _ | o₀
      · intro hb'; exact absurd (no_change rfl ha hb') hne
      · dsimp only
        intro hb'
        rcases findOrder_mem hfo with ⟨hom, hoid⟩
        have hedge := edge_of_update hom hG.ordNodup
          (fun oo => { oo with
            originLat := la
            originLng := ln
            eta := if o₀.assignedDroneId.isSome ∧ (o₀.status = OrderStatus.ASSIGNED ∨
                o₀.status = OrderStatus.IN_TRANSIT) then
              some (calculateETAFromLocation (jsOr o₀.currentLat o₀.originLat)
                (jsOr o₀.currentLng o₀.originLng) o₀.destinationLat o₀.destinationLng 50)
            else o₀.eta })
          (fun oo => rfl) hoid rfl ha hb' hne
        rcases hedge with ⟨hA, hB⟩
        exact absurd (hA.trans hB.symm) hne
  | adminDest oid' la ln =>
    have hb' : statusOf (stateOf (OrderService.updateOrderDestination oid' la ln s)) oid
        = some b := hb
    clear hb
    unfold OrderService.updateOrderDestination at hb'
    revert hb'
    rcases hv : validateCoordinates la ln with e | v
    · intro hb'; exact absurd (no_change rfl ha hb') hne
    · cases v
      dsimp only
      rcases hfo : findOrder s oid' with _ | o₀
      · intro hb'; exact absurd (no_change rfl ha hb') hne
      · dsimp only
        intro hb'
        rcases findOrder_mem hfo with ⟨hom, hoid⟩
        have hedge := edge_of_update hom hG.ordNodup
          (fun oo => { oo with
            destinationLat := la
            destinationLng := ln
            eta := if o₀.assignedDroneId.isSome ∧ (o₀.status = OrderStatus.ASSIGNED ∨
                o₀.status = OrderStatus.IN_TRANSIT) then
              some (calculateETAFromLocation (jsOr o₀.currentLat o₀.originLat)
                (jsOr o₀.currentLng o₀.originLng) la ln 50)
            else o₀.eta })
          (fun oo => rfl) hoid rfl ha hb' hne
        rcases hedge with ⟨hA, hB⟩
        exact absurd (hA.trans hB.symm) hne
  | register la ln =>
    have hb' : statusOf (registerDrone la ln s) oid = some b := hb
    exact absurd (no_change rfl ha hb') hne

/-! ## The concurrent claim race -/

theorem claimAttempt_fail {s : St} {jid : Nat} (d : Nat) {j : Job}
    (h : findJob s jid = some j) (hs : j.status ≠ JobStatus.PENDING) :
    claimAttempt jid d s = (false, s) := by
  unfold claimAttempt JobRepository.reserveJob
  rw [h]
  dsimp only
  rw [if_neg hs]

theorem claimAttempt_success {s : St} {jid : Nat} (d : Nat) {j : Job}
    (h : findJob s jid = some j) (hp : j.status = JobStatus.PENDING) :
    claimAttempt jid d s = (true, updateJob s jid (fun k =>
      { k with status := JobStatus.RESERVED, assignedDroneId := some d })) := by
  unfold claimAttempt JobRepository.reserveJob
  rw [h]
  dsimp only
  rw [if_pos hp]

/-- Once the job is out of PENDING, every further claim attempt on it fails
and changes nothing. -/
theorem claims_noop {jid : Nat} {jr : Job} (hs : jr.status ≠ JobStatus.PENDING) :
    ∀ (l : List (Nat × Nat)) (s : St), findJob s jid = some jr →
      (∀ a ∈ l, a.1 = jid) → runClaims l s = s ∧ claimWinners l s = [] := by
  intro l
  induction l with
  | nil => intro s _ _; exact ⟨rfl, rfl⟩
  | cons a rest ih =>
    intro s hfj hall
    rcases a with ⟨aj, ad⟩
    have haj : aj = jid := hall (aj, ad) (List.mem_cons_self _ _)
    subst haj
    have hfail := claimAttempt_fail ad hfj hs
    have hrest := ih s hfj (fun x hx => hall x (List.mem_cons_of_mem _ hx))
    constructor
    · rw [runClaims, hfail]
      exact hrest.1
    · rw [claimWinners, hfail]
      dsimp only
      exact hrest.2

/-! ## Projection-stripping lemmas -/

@[simp] theorem findOrder_of_updateDrone (s : St) (did : Nat) (f : Drone → Drone) (oid : Nat) :
    findOrder (updateDrone s did f) oid = findOrder s oid := rfl

@[simp] theorem findOrder_of_updateJob (s : St) (jid : Nat) (f : Job → Job) (oid : Nat) :
    findOrder (updateJob s jid f) oid = findOrder s oid := rfl

@[simp] theorem findOrder_of_jobsSet (s : St) (js : List Job) (oid : Nat) :
    findOrder { s with jobs := js } oid = findOrder s oid := rfl

@[simp] theorem findDrone_of_updateOrder (s : St) (oid : Nat) (f : Order → Order) (did : Nat) :
    findDrone (updateOrder s oid f) did = findDrone s did := rfl

@[simp] theorem findDrone_of_updateJob (s : St) (jid : Nat) (f : Job → Job) (did : Nat) :
    findDrone (updateJob s jid f) did = findDrone s did := rfl

@[simp] theorem findDrone_of_jobsSet (s : St) (js : List Job) (did : Nat) :
    findDrone { s with jobs := js } did = findDrone s did := rfl

@[simp] theorem findJob_of_updateOrder (s : St) (oid : Nat) (f : Order → Order) (jid : Nat) :
    findJob (updateOrder s oid f) jid = findJob s jid := rfl

@[simp] theorem findJob_of_updateDrone (s : St) (did : Nat) (f : Drone → Drone) (jid : Nat) :
    findJob (updateDrone s did f) jid = findJob s jid := rfl

@[simp] theorem findOrder_of_jobsNext (s : St) (js : List Job) (n : Nat) (oid : Nat) :
    findOrder { s with jobs := js, nextId := n } oid = findOrder s oid := rfl

@[simp] theorem findDrone_of_jobsNext (s : St) (js : List Job) (n : Nat) (did : Nat) :
    findDrone { s with jobs := js, nextId := n } did = findDrone s did := rfl

@[simp] theorem jobsSet_jobs (s : St) (js : List Job) :
    ({ s with jobs := js } : St).jobs = js := rfl

/-! ## The claims -/

/-- C1: of N ≥ 2 serialized concurrent claim attempts competing for one
PENDING work-unit, exactly the first wins (`claimWinners` is the singleton
of the first attempt); afterwards the unit is RESERVED with the winner's
id, and its `assignedAgentId` never changes under any further attempts.
The store's claim transactions are modelled as atomic serialized steps,
per the spec's transactional-store assumption. -/
theorem c1_exactly_one_winner (s : St) (jid d : Nat) (rest : List (Nat × Nat)) (j : Job)
    (hfj : findJob s jid = some j) (hp : j.status = JobStatus.PENDING)
    (hall : ∀ a ∈ rest, a.1 = jid) :
    claimWinners ((jid, d) :: rest) s = [(jid, d)] ∧
      findJob (runClaims ((jid, d) :: rest) s) jid =
        some { j with status := JobStatus.RESERVED, assignedDroneId := some d } ∧
      ∀ l2 : List (Nat × Nat), (∀ a ∈ l2, a.1 = jid) →
        findJob (runClaims l2 (runClaims ((jid, d) :: rest) s)) jid =
          some { j with status := JobStatus.RESERVED, assignedDroneId := some d } := by
  have hsucc := claimAttempt_success d hfj hp
  have hj1 : findJob (updateJob s jid (fun k =>
      { k with status := JobStatus.RESERVED, assignedDroneId := some d })) jid =
      some { j with status := JobStatus.RESERVED, assignedDroneId := some d } := by
    rw [findJob_updateJob s jid (fun k => { k with status := JobStatus.RESERVED, assignedDroneId := some d }) (fun k => rfl) jid, hfj]
    simp [(findJob_mem hfj).2]
  have hnp : ({ j with status := JobStatus.RESERVED, assignedDroneId := some d } : Job).status ≠ JobStatus.PENDING := by
    intro hcon
    cases hcon
  have hno := claims_noop hnp rest _ hj1 hall
  refine ⟨?_, ?_, ?_⟩
  · rw [claimWinners, hsucc]
    dsimp only
    rw [hno.2]
    rfl
  · rw [runClaims, hsucc]
    dsimp only
    rw [hno.1]
    exact hj1
  · intro l2 hall2
    rw [runClaims, hsucc]
    dsimp only
    rw [hno.1]
    rw [(claims_noop hnp l2 _ hj1 hall2).1]
    exact hj1

/-- C1 witness: three agents race for the one PENDING unit of `raceState`;
agent 1's attempt is first and is the only winner. -/
theorem c1_witness :
    findJob raceState 7 =
        some ⟨7, JobType.DELIVERY_ORDER, none, 1, 2, 3, 4, none, JobStatus.PENDING, none, 0⟩ ∧
    claimWinners [(7, 1), (7, 2), (7, 3)] raceState = [(7, 1)] ∧
      findJob (runClaims [(7, 1), (7, 2), (7, 3)] raceState) 7 =
        some ⟨7, JobType.DELIVERY_ORDER, none, 1, 2, 3, 4, none, JobStatus.RESERVED, some 1, 0⟩ := by
  have h := c1_exactly_one_winner raceState 7 1 [(7, 2), (7, 3)] _ rfl rfl (by decide)
  exact ⟨rfl, h.1, h.2.1⟩

/-- C2 counterexample: on `orphanState` the claim transaction commits, the
secondary Request update then throws, and the error state still shows the
work-unit RESERVED by the agent while no Request is ASSIGNED — the claim
was not rolled back, refuting the all-or-nothing claim. -/
theorem c2_counterexample :
    DroneService.reserveJob 5 orphanState =
        Except.error (Err.internal, stateOf (DroneService.reserveJob 5 orphanState)) ∧
      (findJob (stateOf (DroneService.reserveJob 5 orphanState)) 7).map
          (fun j => (j.status, j.assignedDroneId)) =
        some (JobStatus.RESERVED, some 5) ∧
      (stateOf (DroneService.reserveJob 5 orphanState)).orders = [] := by
  refine ⟨rfl, by decide, by decide⟩

/-- C2 (amended): the PENDING→RESERVED claim is its own transaction and the
Request/agent updates are separate subsequent writes; whenever
`DroneService.reserveJob` fails with a state other than its input (i.e. the
failure happened after the claim), the claimed work-unit is left RESERVED
for the agent and the orders are untouched — there is no rollback. -/
theorem c2_claim_not_rolled_back {d : Nat} {s : St} {e : Err} {serr : St}
    (herr : DroneService.reserveJob d s = Except.error (e, serr)) (hne : serr ≠ s) :
    serr.orders = s.orders ∧
      ∃ jid j, findJob s jid = some j ∧ j.status = JobStatus.PENDING ∧
        findJob serr jid =
          some { j with status := JobStatus.RESERVED, assignedDroneId := some d } := by
  unfold DroneService.reserveJob at herr
  revert herr
  rcases hfd : findDrone s d with _ | dr
  · intro herr
    rcases herr with ⟨⟩
    exact absurd rfl hne
  · dsimp only
    by_cases hb : dr.isBroken
    · rw [if_pos hb]
      intro herr
      rcases herr with ⟨⟩
      exact absurd rfl hne
    · rw [if_neg hb]
      by_cases hbusy : dr.status = DroneStatus.BUSY
      · rw [if_pos hbusy]
        intro herr
        rcases herr with ⟨⟩
        exact absurd rfl hne
      · rw [if_neg hbusy]
        rcases hres : JobService.reserveJob d s with _ | p
        · intro herr
          cases herr
        · rcases p with ⟨rj, s1⟩
          dsimp only
          rcases reserveLoop_spec hres with ⟨jid, j0, hfj, hp0, hrj, hs1⟩
          rcases hoid : rj.orderId with _ | oid
          · intro herr
            cases herr
          · dsimp only
            rcases hfo1 : findOrder s1 oid with _ | o1
            · intro herr
              rcases herr with ⟨⟩
              constructor
              · rw [hs1]; rfl
              · refine ⟨jid, j0, hfj, hp0, ?_⟩
                rw [hs1]
                rw [findJob_updateJob s jid (fun k => { k with status := JobStatus.RESERVED, assignedDroneId := some d }) (fun k => rfl) jid, hfj]
                simp [(findJob_mem hfj).2]
            · intro herr
              cases herr


/-- C2 witness: the amended no-rollback theorem applied to `orphanState`. -/
theorem c2_witness :
    stateOf (DroneService.reserveJob 5 orphanState) ≠ orphanState ∧
      (stateOf (DroneService.reserveJob 5 orphanState)).orders = orphanState.orders ∧
      ∃ jid j, findJob orphanState jid = some j ∧ j.status = JobStatus.PENDING ∧
        findJob (stateOf (DroneService.reserveJob 5 orphanState)) jid =
          some { j with status := JobStatus.RESERVED, assignedDroneId := some 5 } := by
  have h := @c2_claim_not_rolled_back 5 orphanState Err.internal
    (stateOf (DroneService.reserveJob 5 orphanState)) rfl (by decide)
  exact ⟨by decide, h.1, h.2⟩

/-- C3: the candidate walk of `reserve`: the candidate list is exactly the
PENDING work-units, totally ordered with HANDOFF before DELIVERY and
`createdAt` ascending; the walk returns the first candidate whose
conditional claim succeeds, silently skips one whose claim fails, yields
`none` on an empty list, and an empty candidate list makes
`DroneService.reserveJob` return "no work available" (`Except.ok none`),
not an error.  (The list is recomputed from the store on every call:
`JobService.reserveJob` invokes `findPendingJobs` on its input state.) -/
theorem c3_candidate_walk (s : St) :
    (List.Sorted jobLE (findPendingJobs s) ∧
      ∀ j : Job, j ∈ findPendingJobs s ↔ (j ∈ s.jobs ∧ j.status = JobStatus.PENDING)) ∧
    (∀ d : Nat, ∀ c : Job, ∀ rest : List Job, ∀ st : St, ∀ e : Err,
      JobRepository.reserveJob c.id d st = Except.error e →
        JobService.reserveLoop d (c :: rest) st = JobService.reserveLoop d rest st) ∧
    (∀ d : Nat, ∀ c : Job, ∀ rest : List Job, ∀ st : St, ∀ rj : Job, ∀ st' : St,
      JobRepository.reserveJob c.id d st = Except.ok (rj, st') →
        JobService.reserveLoop d (c :: rest) st = some (rj, st')) ∧
    (∀ d : Nat, JobService.reserveLoop d [] s = none) ∧
    (∀ d : Nat, ∀ dr : Drone, findDrone s d = some dr → dr.isBroken = false →
      dr.status ≠ DroneStatus.BUSY → findPendingJobs s = [] →
      DroneService.reserveJob d s = Except.ok (none, s)) := by
  refine ⟨⟨?_, ?_⟩, ?_, ?_, ?_, ?_⟩
  · exact List.sorted_insertionSort jobLE _
  · intro j
    unfold findPendingJobs
    rw [List.mem_insertionSort, List.mem_filter]
    simp
  · intro d c rest st e h
    rw [JobService.reserveLoop, h]
  · intro d c rest st rj st' h
    rw [JobService.reserveLoop, h]
  · intro d
    rfl
  · intro d dr hfd hnb hnbusy hempty
    unfold DroneService.reserveJob
    rw [hfd]
    dsimp only
    rw [if_neg (by simp [hnb]), if_neg hnbusy]
    unfold JobService.reserveJob
    rw [hempty]
    rfl

/-- C3 witness: on `idleState` (one available drone, no jobs) the ordering
facts hold and the reserve call returns "no work available", not an
error. -/
theorem c3_witness :
    findDrone idleState 5 = some ⟨5, 1, 1, DroneStatus.AVAILABLE, false, 0⟩ ∧
      findPendingJobs idleState = [] ∧
      DroneService.reserveJob 5 idleState = Except.ok (none, idleState) := by
  refine ⟨by decide, by decide, ?_⟩
  exact (c3_candidate_walk idleState).2.2.2.2 5 ⟨5, 1, 1, DroneStatus.AVAILABLE, false, 0⟩
    (by decide) (by decide) (by decide) (by decide)

/-- C4 counterexample: after `[register, submit, reserve, grab, deliver]`
the Request is DELIVERED with `assignedAgentId` still set (deliver never
clears it), refuting the claimed iff; and after
`[register, submit, reserve, grab, markBroken]` the Request is PENDING
with a non-null `currentCoordinate` (the handoff reset writes it),
refuting the claimed "only if IN_TRANSIT or DELIVERED". -/
theorem c4_counterexample :
    (findOrder (reach [Op.register 1 1, Op.submit 1 2 3 4 7, Op.reserve 0, Op.grab 1 0,
        Op.deliver 1 0]) 1).map (fun o => (o.status, o.assignedDroneId)) =
      some (OrderStatus.DELIVERED, some 0) ∧
    ¬((some 0 : Option Nat) ≠ none ↔
      (OrderStatus.DELIVERED = OrderStatus.ASSIGNED ∨
        OrderStatus.DELIVERED = OrderStatus.IN_TRANSIT)) ∧
    (findOrder (reach [Op.register 1 1, Op.submit 1 2 3 4 7, Op.reserve 0, Op.grab 1 0,
        Op.markBroken 0]) 1).map (fun o => (o.status, o.currentLat, o.currentLng)) =
      some (OrderStatus.PENDING, some 1, some 1) := by
  refine ⟨by decide, by decide, by decide⟩

/-- C4 (amended): in every state reachable by any sequence of the modelled
operations, a Request's `assignedAgentId` is non-null iff its status is
ASSIGNED, IN_TRANSIT, DELIVERED or FAILED (the terminal operations do not
clear it), and `currentCoordinate` is non-null whenever the status is
IN_TRANSIT or DELIVERED (the converse fails: the markBroken reset stores a
coordinate on a PENDING Request). -/
theorem c4_invariant (ops : List Op) :
    ∀ o ∈ (reach ops).orders,
      (o.assignedDroneId ≠ none ↔
        (o.status = OrderStatus.ASSIGNED ∨ o.status = OrderStatus.IN_TRANSIT ∨
         o.status = OrderStatus.DELIVERED ∨ o.status = OrderStatus.FAILED)) ∧
      ((o.status = OrderStatus.IN_TRANSIT ∨ o.status = OrderStatus.DELIVERED) →
        (o.currentLat ≠ none ∧ o.currentLng ≠ none)) :=
  fun o ho => (good_reach ops).ordInv o ho

/-- C4 witness: the amended invariant evaluated on the delivered order of a
concrete five-operation run. -/
theorem c4_witness :
    ((⟨1, 1, 2, 3, 4, OrderStatus.DELIVERED, 7, some 0, some 3, some 4, none, 1⟩ : Order) ∈
        (reach [Op.register 1 1, Op.submit 1 2 3 4 7, Op.reserve 0, Op.grab 1 0,
          Op.deliver 1 0]).orders) ∧
      (((some 0 : Option Nat) ≠ none ↔
        (OrderStatus.DELIVERED = OrderStatus.ASSIGNED ∨
          OrderStatus.DELIVERED = OrderStatus.IN_TRANSIT ∨
          OrderStatus.DELIVERED = OrderStatus.DELIVERED ∨
          OrderStatus.DELIVERED = OrderStatus.FAILED))) := by
  constructor
  · decide
  · have h := c4_invariant [Op.register 1 1, Op.submit 1 2 3 4 7, Op.reserve 0, Op.grab 1 0,
      Op.deliver 1 0] ⟨1, 1, 2, 3, 4, OrderStatus.DELIVERED, 7, some 0, some 3, some 4, none, 1⟩
      (by decide)
    exact h.1

/-- C8 counterexample: `deliver` checks only the assignee, so a Request
reachable in status ASSIGNED (reserved, never grabbed) moves straight to
DELIVERED — an edge from a status other than IN_TRANSIT, refuting the
claimed diagram. -/
theorem c8_counterexample :
    statusOf (reach [Op.register 1 1, Op.submit 1 2 3 4 7, Op.reserve 0]) 1 =
        some OrderStatus.ASSIGNED ∧
      statusOf (applyOp (Op.deliver 1 0)
          (reach [Op.register 1 1, Op.submit 1 2 3 4 7, Op.reserve 0])) 1 =
        some OrderStatus.DELIVERED ∧
      OrderStatus.ASSIGNED ≠ OrderStatus.IN_TRANSIT := by
  refine ⟨by decide, by decide, by decide⟩

/-- C8 (amended): in every reachable state, one operation changes a
Request's status only along: PENDING→ASSIGNED or WITHDRAWN→ASSIGNED
(reserve — a withdrawn Request's surviving HANDOFF unit can be claimed),
ASSIGNED→IN_TRANSIT (grab), PENDING→WITHDRAWN (withdraw), and — because
deliver, fail and markBroken check only the assignee — from any of
ASSIGNED, IN_TRANSIT, DELIVERED, FAILED to DELIVERED, FAILED or PENDING. -/
theorem c8_edges (ops : List Op) (op : Op) (oid : Nat) (a b : OrderStatus)
    (ha : statusOf (reach ops) oid = some a)
    (hb : statusOf (applyOp op (reach ops)) oid = some b)
    (hne : a ≠ b) : allowedEdge a b :=
  step_edges op (good_reach ops) oid a b ha hb hne

/-- C8 witness: the amended edge theorem applied to the reserve step of a
concrete run. -/
theorem c8_witness :
    statusOf (reach [Op.register 1 1, Op.submit 1 2 3 4 7]) 1 =
        some OrderStatus.PENDING ∧
      statusOf (applyOp (Op.reserve 0) (reach [Op.register 1 1, Op.submit 1 2 3 4 7])) 1 =
        some OrderStatus.ASSIGNED ∧
      allowedEdge OrderStatus.PENDING OrderStatus.ASSIGNED := by
  refine ⟨by decide, by decide, ?_⟩
  exact c8_edges [Op.register 1 1, Op.submit 1 2 3 4 7] (Op.reserve 0) 1
    OrderStatus.PENDING OrderStatus.ASSIGNED (by decide) (by decide) (by decide)

/-- C5: with the drone and the Request present, `deliver` and `fail` both
report NotFound when the Request's `assignedAgentId` differs from the
calling agent; on a matching assignee, deliver sets the Request DELIVERED
with `currentCoordinate = destination` and `eta = null`, completes every
matching work-unit and frees the agent, while fail sets FAILED with
`eta = null` and frees the agent but leaves every work-unit untouched. -/
theorem c5_deliver_fail (s : St) (oid did : Nat) (d0 : Drone) (o : Order)
    (hd : findDrone s did = some d0) (ho : findOrder s oid = some o) :
    (o.assignedDroneId ≠ some did →
      DroneService.markOrderDelivered oid did s = Except.error (Err.notFound, s) ∧
      DroneService.markOrderFailed oid did s = Except.error (Err.notFound, s)) ∧
    (o.assignedDroneId = some did →
      (∃ s', DroneService.markOrderDelivered oid did s = Except.ok ((), s') ∧
        (findOrder s' oid).map (fun oo => (oo.status, oo.currentLat, oo.currentLng, oo.eta)) =
          some (OrderStatus.DELIVERED, some o.destinationLat, some o.destinationLng, none) ∧
        (∀ j ∈ s.jobs, j.orderId = some oid → j.assignedDroneId = some did →
          { j with status := JobStatus.COMPLETED } ∈ s'.jobs) ∧
        (findDrone s' did).map (fun dd => dd.status) = some DroneStatus.AVAILABLE) ∧
      (∃ s', DroneService.markOrderFailed oid did s = Except.ok ((), s') ∧
        (findOrder s' oid).map (fun oo => (oo.status, oo.eta)) =
          some (OrderStatus.FAILED, none) ∧
        s'.jobs = s.jobs ∧
        (findDrone s' did).map (fun dd => dd.status) = some DroneStatus.AVAILABLE)) := by
  have hoid := (findOrder_mem ho).2
  have hdid := (findDrone_mem hd).2
  constructor
  · intro hne
    constructor
    · unfold DroneService.markOrderDelivered
      rw [hd]
      dsimp only
      rw [ho]
      dsimp only
      rw [if_pos hne]
    · unfold DroneService.markOrderFailed
      rw [hd]
      dsimp only
      rw [ho]
      dsimp only
      rw [if_pos hne]
  · intro heq
    have hnn : ¬o.assignedDroneId ≠ some did := by rw [heq]; intro hc; exact hc rfl
    constructor
    · simp only [DroneService.markOrderDelivered, hd, ho]
      rw [if_neg hnn]
      refine ⟨_, rfl, ?_, ?_, ?_⟩
      · rw [findOrder_of_updateDrone, findOrder_of_jobsSet,
          findOrder_updateOrder s oid (fun oo => { oo with status := OrderStatus.DELIVERED, currentLat := some o.destinationLat, currentLng := some o.destinationLng, eta := none }) (fun oo => rfl) oid, ho]
        simp [hoid]
      · intro j hj hjo hjd
        rw [updateDrone_jobs, jobsSet_jobs, updateOrder_jobs]
        refine List.mem_map.mpr ⟨j, hj, ?_⟩
        have hc : (j.orderId == some oid ∧ j.assignedDroneId == some did) := by
          simp [hjo, hjd]
        rw [if_pos hc]
      · rw [findDrone_updateDrone _ did (fun dd => { dd with status := DroneStatus.AVAILABLE }) (fun dd => rfl) did, findDrone_of_jobsSet,
          findDrone_of_updateOrder, hd]
        simp [hdid]
    · simp only [DroneService.markOrderFailed, hd, ho]
      rw [if_neg hnn]
      refine ⟨_, rfl, ?_, rfl, ?_⟩
      · rw [findOrder_of_updateDrone,
          findOrder_updateOrder s oid (fun oo => { oo with status := OrderStatus.FAILED, eta := none }) (fun oo => rfl) oid, ho]
        simp [hoid]
      · rw [findDrone_updateDrone _ did (fun dd => { dd with status := DroneStatus.AVAILABLE }) (fun dd => rfl) did, findDrone_of_updateOrder, hd]
        simp [hdid]

/-- C5 witness: deliver on a store whose order 1 is IN_TRANSIT assigned to
drone 0. -/
theorem c5_witness :
    findDrone assignedState 0 = some ⟨0, 1, 1, DroneStatus.BUSY, false, 0⟩ ∧
      findOrder assignedState 1 =
        some ⟨1, 1, 2, 3, 4, OrderStatus.IN_TRANSIT, 7, some 0, some 1, some 2, none, 0⟩ ∧
      (∃ s', DroneService.markOrderDelivered 1 0 assignedState = Except.ok ((), s') ∧
        (findOrder s' 1).map (fun oo => (oo.status, oo.currentLat, oo.currentLng, oo.eta)) =
          some (OrderStatus.DELIVERED, some 3, some 4, none) ∧
        (∀ j ∈ assignedState.jobs, j.orderId = some 1 → j.assignedDroneId = some 0 →
          { j with status := JobStatus.COMPLETED } ∈ s'.jobs) ∧
        (findDrone s' 0).map (fun dd => dd.status) = some DroneStatus.AVAILABLE) :=
  ⟨rfl, rfl, ((c5_deliver_fail assignedState 1 0 _ _ rfl rfl).2 rfl).1⟩

/-- C6: `markBroken` is a no-op on an already-broken agent; otherwise, if
the agent holds a Request, exactly one HANDOFF work-unit is appended —
PENDING, origin = the agent's position, destination = the Request's
destination, `sourceAgentId` = the agent, linked to the Request — the
Request is reset to PENDING (unassigned, `currentCoordinate` = agent
position, `eta = null`), and in every non-broken case the agent ends up
BROKEN with `isBroken = true`. -/
theorem c6_markBroken (s : St) (did : Nat) (d : Drone)
    (hd : findDrone s did = some d)
    (hnd : s.orders.Pairwise (fun x y => x.id ≠ y.id)) :
    (d.isBroken = true → DroneService.markDroneBroken did s = Except.ok ((), s)) ∧
    (d.isBroken = false → ∀ o : Order, findAssignedOrder s did = some o →
      ∃ s', DroneService.markDroneBroken did s = Except.ok ((), s') ∧
        s'.jobs = s.jobs ++ [handoffJob s d o] ∧
        (handoffJob s d o).type = JobType.HANDOFF ∧
        (handoffJob s d o).status = JobStatus.PENDING ∧
        (handoffJob s d o).originLat = d.currentLat ∧
        (handoffJob s d o).originLng = d.currentLng ∧
        (handoffJob s d o).destinationLat = o.destinationLat ∧
        (handoffJob s d o).destinationLng = o.destinationLng ∧
        (handoffJob s d o).brokenDroneId = some did ∧
        (handoffJob s d o).orderId = some o.id ∧
        (findOrder s' o.id).map (fun oo =>
            (oo.status, oo.assignedDroneId, oo.currentLat, oo.currentLng, oo.eta)) =
          some (OrderStatus.PENDING, none, some d.currentLat, some d.currentLng, none) ∧
        (findDrone s' did).map (fun dd => (dd.status, dd.isBroken)) =
          some (DroneStatus.BROKEN, true)) ∧
    (d.isBroken = false → findAssignedOrder s did = none →
      ∃ s', DroneService.markDroneBroken did s = Except.ok ((), s') ∧
        s'.jobs = s.jobs ∧ s'.orders = s.orders ∧
        (findDrone s' did).map (fun dd => (dd.status, dd.isBroken)) =
          some (DroneStatus.BROKEN, true)) := by
  have hdid := (findDrone_mem hd).2
  refine ⟨?_, ?_, ?_⟩
  · intro hb
    unfold DroneService.markDroneBroken
    rw [hd]
    dsimp only
    rw [if_pos hb]
  · intro hb o hao
    rcases findAssignedOrder_mem hao with ⟨hom, hoas⟩
    have hfo : findOrder s o.id = some o :=
      find?_self_of_nodup (fun (x : Order) => x.id) _ hnd o hom
    simp only [DroneService.markDroneBroken, hd, hao]
    rw [if_neg (by simp [hb])]
    refine ⟨_, rfl, rfl, rfl, rfl, rfl, rfl, rfl, rfl, by simp [handoffJob, hdid], rfl, ?_, ?_⟩
    · rw [findOrder_of_updateDrone,
        findOrder_updateOrder _ o.id (fun oo => { oo with status := OrderStatus.PENDING, assignedDroneId := none, currentLat := some d.currentLat, currentLng := some d.currentLng, eta := none }) (fun oo => rfl) o.id,
        findOrder_of_jobsNext, hfo]
      simp
    · rw [findDrone_updateDrone _ did (fun dr => { dr with status := DroneStatus.BROKEN, isBroken := true }) (fun dr => rfl) did,
        findDrone_of_updateOrder, findDrone_of_jobsNext, hd]
      simp [hdid]
  · intro hb hao
    simp only [DroneService.markDroneBroken, hd, hao]
    rw [if_neg (by simp [hb])]
    refine ⟨_, rfl, rfl, rfl, ?_⟩
    rw [findDrone_updateDrone _ did (fun dr => { dr with status := DroneStatus.BROKEN, isBroken := true }) (fun dr => rfl) did, hd]
    simp [hdid]

/-- C6 witness: drone 0 of `assignedState` holds order 1; marking it broken
creates the handoff unit and resets the order. -/
theorem c6_witness :
    findDrone assignedState 0 = some ⟨0, 1, 1, DroneStatus.BUSY, false, 0⟩ ∧
      findAssignedOrder assignedState 0 =
        some ⟨1, 1, 2, 3, 4, OrderStatus.IN_TRANSIT, 7, some 0, some 1, some 2, none, 0⟩ ∧
      (∃ s', DroneService.markDroneBroken 0 assignedState = Except.ok ((), s') ∧
        s'.jobs = assignedState.jobs ++
          [handoffJob assignedState ⟨0, 1, 1, DroneStatus.BUSY, false, 0⟩
            ⟨1, 1, 2, 3, 4, OrderStatus.IN_TRANSIT, 7, some 0, some 1, some 2, none, 0⟩] ∧
        (findOrder s' 1).map (fun oo =>
            (oo.status, oo.assignedDroneId, oo.currentLat, oo.currentLng, oo.eta)) =
          some (OrderStatus.PENDING, none, some 1, some 1, none) ∧
        (findDrone s' 0).map (fun dd => (dd.status, dd.isBroken)) =
          some (DroneStatus.BROKEN, true)) := by
  have h := (c6_markBroken assignedState 0 ⟨0, 1, 1, DroneStatus.BUSY, false, 0⟩ rfl
    (by decide)).2.1 rfl ⟨1, 1, 2, 3, 4, OrderStatus.IN_TRANSIT, 7, some 0, some 1, some 2, none, 0⟩ rfl
  rcases h with ⟨s', h1, h2, _, _, _, _, _, _, _, _, h3, h4⟩
  exact ⟨rfl, rfl, ⟨s', h1, h2, h3, h4⟩⟩

/-- C7: `withdraw` reports NotFound for a missing Request and for an
ownership mismatch (never revealing existence), Conflict when the Request
is not PENDING or already assigned, and on success sets the Request
WITHDRAWN and deletes its still-PENDING DELIVERY work-units, so the
candidate list of any later `reserve` contains no DELIVERY unit of this
Request. -/
theorem c7_withdraw (s : St) (oid uid : Nat) :
    (findOrder s oid = none →
      OrderService.withdrawOrder oid uid s = Except.error (Err.notFound, s)) ∧
    (∀ o : Order, findOrder s oid = some o →
      (o.createdBy ≠ uid →
        OrderService.withdrawOrder oid uid s = Except.error (Err.notFound, s)) ∧
      (o.createdBy = uid → o.status ≠ OrderStatus.PENDING →
        ∃ c, OrderService.withdrawOrder oid uid s = Except.error (Err.conflict c, s)) ∧
      (o.createdBy = uid → o.status = OrderStatus.PENDING → o.assignedDroneId ≠ none →
        ∃ c, OrderService.withdrawOrder oid uid s = Except.error (Err.conflict c, s)) ∧
      (o.createdBy = uid → o.status = OrderStatus.PENDING → o.assignedDroneId = none →
        ∃ s', OrderService.withdrawOrder oid uid s = Except.ok ((), s') ∧
          (findOrder s' oid).map (fun oo => oo.status) = some OrderStatus.WITHDRAWN ∧
          (∀ j ∈ s'.jobs, ¬(j.orderId = some oid ∧ j.type = JobType.DELIVERY_ORDER ∧
            j.status = JobStatus.PENDING)) ∧
          (∀ j ∈ s.jobs, ¬(j.orderId = some oid ∧ j.type = JobType.DELIVERY_ORDER ∧
            j.status = JobStatus.PENDING) → j ∈ s'.jobs) ∧
          (∀ j ∈ findPendingJobs s',
            ¬(j.orderId = some oid ∧ j.type = JobType.DELIVERY_ORDER)))) := by
  constructor
  · intro h
    unfold OrderService.withdrawOrder
    rw [h]
  · intro o ho
    have hoid := (findOrder_mem ho).2
    refine ⟨?_, ?_, ?_, ?_⟩
    · intro hown
      unfold OrderService.withdrawOrder
      rw [ho]
      dsimp only
      rw [if_pos hown]
    · intro hown hst
      unfold OrderService.withdrawOrder
      rw [ho]
      dsimp only
      rw [if_neg (by simp [hown]), if_pos hst]
      exact ⟨_, rfl⟩
    · intro hown hst hasg
      unfold OrderService.withdrawOrder
      rw [ho]
      dsimp only
      rw [if_neg (by simp [hown]), if_neg (by simp [hst]), if_pos hasg]
      exact ⟨_, rfl⟩
    · intro hown hst hasg
      simp only [OrderService.withdrawOrder, ho]
      rw [if_neg (by simp [hown]), if_neg (by simp [hst]), if_neg (by simp [hasg])]
      refine ⟨_, rfl, ?_, ?_, ?_, ?_⟩
      · rw [findOrder_of_jobsSet,
          findOrder_updateOrder s oid (fun oo => { oo with status := OrderStatus.WITHDRAWN }) (fun oo => rfl) oid, ho]
        simp [hoid]
      · intro j hj hcon
        rw [jobsSet_jobs, updateOrder_jobs] at hj
        rcases List.mem_filter.mp hj with ⟨hj1, hj2⟩
        simp at hj2
        rcases hj2 with h | h | h
        · exact h hcon.1
        · exact h hcon.2.1
        · exact h hcon.2.2
      · intro j hj hnot
        rw [jobsSet_jobs, updateOrder_jobs]
        refine List.mem_filter.mpr ⟨hj, ?_⟩
        simp only [decide_eq_true_eq]
        intro h1
        exact hnot (by simpa using h1)
      · intro j hjp hcon
        unfold findPendingJobs at hjp
        rw [List.mem_insertionSort, List.mem_filter] at hjp
        rcases hjp with ⟨hjmem, hjpend⟩
        simp only [beq_iff_eq] at hjpend
        rw [jobsSet_jobs, updateOrder_jobs] at hjmem
        rcases List.mem_filter.mp hjmem with ⟨hj1, hj2⟩
        simp at hj2
        rcases hj2 with h | h | h
        · exact h hcon.1
        · exact h hcon.2
        · exact h hjpend

/-- C7 witness: a concrete unassigned PENDING order with its pending
delivery job is withdrawn and the job disappears from the candidate
list. -/
theorem c7_witness :
    findOrder (reach [Op.register 1 1, Op.submit 1 2 3 4 7]) 1 =
        some ⟨1, 1, 2, 3, 4, OrderStatus.PENDING, 7, none, none, none, none, 1⟩ ∧
      (∃ s', OrderService.withdrawOrder 1 7 (reach [Op.register 1 1, Op.submit 1 2 3 4 7]) =
          Except.ok ((), s') ∧
        (findOrder s' 1).map (fun oo => oo.status) = some OrderStatus.WITHDRAWN ∧
        (∀ j ∈ s'.jobs, ¬(j.orderId = some 1 ∧ j.type = JobType.DELIVERY_ORDER ∧
          j.status = JobStatus.PENDING)) ∧
        (∀ j ∈ findPendingJobs s', ¬(j.orderId = some 1 ∧ j.type = JobType.DELIVERY_ORDER))) := by
  have h := ((c7_withdraw (reach [Op.register 1 1, Op.submit 1 2 3 4 7]) 1 7).2
    ⟨1, 1, 2, 3, 4, OrderStatus.PENDING, 7, none, none, none, none, 1⟩ (by decide)).2.2.2
    rfl rfl rfl
  rcases h with ⟨s', h1, h2, h3, _, h5⟩
  exact ⟨by decide, ⟨s', h1, h2, h3, h5⟩⟩

/-- C9 counterexample: the code uses JS `||`, not `??`: on `zeroLatState`
(stored `currentLat = 0`), the admin origin update computes the ETA from
start latitude 10 (the origin's), not the stored 0 — a stored coordinate
component equal to 0 is replaced by the origin's, refuting the claim. -/
theorem c9_counterexample :
    (findOrder (stateOf (OrderService.updateOrderOrigin 1 11 21 zeroLatState)) 1).map
        (fun o => o.eta) = some (some (calculateETAFromLocation 10 30 5 25 50)) ∧
      calculateETAFromLocation 10 30 5 25 50 ≠ calculateETAFromLocation 0 30 5 25 50 := by
  refine ⟨by decide, by decide⟩

/-- C9 (amended): on an existing Request with a valid coordinate, both
admin updates always succeed regardless of status; the ETA is recomputed
exactly when `assignedAgentId` is non-null and the status is ASSIGNED or
IN_TRANSIT, with each start component taken as `currentLat/Lng` when it is
non-null and non-zero and the origin's component otherwise (JS `||`), and
the end point is the unchanged destination for the origin update and the
new destination for the destination update. -/
theorem c9_admin_eta (s : St) (oid : Nat) (lat lng : Rat) (o : Order)
    (hv : validateCoordinates lat lng = Except.ok ())
    (ho : findOrder s oid = some o) :
    (∃ s', OrderService.updateOrderOrigin oid lat lng s = Except.ok ((), s') ∧
      (findOrder s' oid).map (fun oo => (oo.originLat, oo.originLng, oo.eta)) =
        some (lat, lng,
          if o.assignedDroneId.isSome ∧ (o.status = OrderStatus.ASSIGNED ∨
              o.status = OrderStatus.IN_TRANSIT) then
            some (calculateETAFromLocation (jsOr o.currentLat o.originLat)
              (jsOr o.currentLng o.originLng) o.destinationLat o.destinationLng 50)
          else o.eta)) ∧
    (∃ s', OrderService.updateOrderDestination oid lat lng s = Except.ok ((), s') ∧
      (findOrder s' oid).map (fun oo => (oo.destinationLat, oo.destinationLng, oo.eta)) =
        some (lat, lng,
          if o.assignedDroneId.isSome ∧ (o.status = OrderStatus.ASSIGNED ∨
              o.status = OrderStatus.IN_TRANSIT) then
            some (calculateETAFromLocation (jsOr o.currentLat o.originLat)
              (jsOr o.currentLng o.originLng) lat lng 50)
          else o.eta)) := by
  have hoid := (findOrder_mem ho).2
  constructor
  · simp only [OrderService.updateOrderOrigin, hv, ho]
    refine ⟨_, rfl, ?_⟩
    rw [findOrder_updateOrder s oid (fun oo => { oo with originLat := lat, originLng := lng, eta := if o.assignedDroneId.isSome ∧ (o.status = OrderStatus.ASSIGNED ∨ o.status = OrderStatus.IN_TRANSIT) then some (calculateETAFromLocation (jsOr o.currentLat o.originLat) (jsOr o.currentLng o.originLng) o.destinationLat o.destinationLng 50) else o.eta }) (fun oo => rfl) oid, ho]
    simp [hoid]
  · simp only [OrderService.updateOrderDestination, hv, ho]
    refine ⟨_, rfl, ?_⟩
    rw [findOrder_updateOrder s oid (fun oo => { oo with destinationLat := lat, destinationLng := lng, eta := if o.assignedDroneId.isSome ∧ (o.status = OrderStatus.ASSIGNED ∨ o.status = OrderStatus.IN_TRANSIT) then some (calculateETAFromLocation (jsOr o.currentLat o.originLat) (jsOr o.currentLng o.originLng) lat lng 50) else o.eta }) (fun oo => rfl) oid, ho]
    simp [hoid]

/-- C9 witness: the amended theorem applied to `zeroLatState`, where the
mixed start point `(10, 30)` of the `||` semantics is visible. -/
theorem c9_witness :
    findOrder zeroLatState 1 =
        some ⟨1, 10, 20, 5, 25, OrderStatus.IN_TRANSIT, 7, some 0, some 0, some 30, none, 0⟩ ∧
      (∃ s', OrderService.updateOrderOrigin 1 11 21 zeroLatState = Except.ok ((), s') ∧
        (findOrder s' 1).map (fun oo => (oo.originLat, oo.originLng, oo.eta)) =
          some (11, 21, some (calculateETAFromLocation 10 30 5 25 50))) := by
  have h := (c9_admin_eta zeroLatState 1 11 21
    ⟨1, 10, 20, 5, 25, OrderStatus.IN_TRANSIT, 7, some 0, some 0, some 30, none, 0⟩
    rfl rfl).1
  rcases h with ⟨s', h1, h2⟩
  refine ⟨rfl, ⟨s', h1, ?_⟩⟩
  rw [h2]
  decide

/-- C10: whenever `reserve` succeeds with a claimed work-unit that carries
a Request id and that Request exists, the Request afterwards is ASSIGNED to
the claiming agent — unconditionally, whatever its prior status or prior
assignee. -/
theorem c10_reserve_unconditional (s : St) (did oid : Nat) (rj : Job) (s' : St) (o : Order)
    (hres : DroneService.reserveJob did s = Except.ok (some rj, s'))
    (hoid : rj.orderId = some oid) (ho : findOrder s oid = some o) :
    (findOrder s' oid).map (fun oo => (oo.status, oo.assignedDroneId)) =
      some (OrderStatus.ASSIGNED, some did) := by
  unfold DroneService.reserveJob at hres
  revert hres
  rcases hfd : findDrone s did with _ | dr
  · intro hres; cases hres
  · dsimp only
    by_cases hb : dr.isBroken
    · rw [if_pos hb]; intro hres; cases hres
    · rw [if_neg hb]
      by_cases hbusy : dr.status = DroneStatus.BUSY
      · rw [if_pos hbusy]; intro hres; cases hres
      · rw [if_neg hbusy]
        rcases hloop : JobService.reserveJob did s with _ | p
        · intro hres; cases hres
        · rcases p with ⟨rj0, s1⟩
          dsimp only
          rcases reserveLoop_spec hloop with ⟨jid, j0, hfj, hp0, hrj0, hs1⟩
          rcases hoid0 : rj0.orderId with _ | oid0
          · intro hres
            rcases hres with ⟨⟩
            rw [hoid0] at hoid
            cases hoid
          · dsimp only
            rcases hfo1 : findOrder s1 oid0 with _ | o1
            · intro hres; cases hres
            · intro hres
              rcases hres with ⟨⟩
              have heq : oid0 = oid := by
                rw [hoid0] at hoid
                exact Option.some.inj hoid
              subst heq
              rw [findOrder_of_updateDrone,
                findOrder_updateOrder s1 oid0 (fun oo => { oo with status := OrderStatus.ASSIGNED, assignedDroneId := some did }) (fun oo => rfl) oid0]
              have hfo1s : findOrder s1 oid0 = some o1 := hfo1
              rw [hfo1s]
              have ho1id := (findOrder_mem hfo1).2
              simp [ho1id]

/-- C10 witness: on `withdrawnHandoffState` the agent claims the surviving
HANDOFF unit of the WITHDRAWN Request, which thereby becomes ASSIGNED to
the agent. -/
theorem c10_witness :
    DroneService.reserveJob 0 withdrawnHandoffState =
        Except.ok (some ⟨3, JobType.HANDOFF, some 1, 5, 6, 3, 4, some 2, JobStatus.RESERVED,
          some 0, 1⟩, stateOf (DroneService.reserveJob 0 withdrawnHandoffState)) ∧
      (⟨3, JobType.HANDOFF, some 1, 5, 6, 3, 4, some 2, JobStatus.RESERVED,
          some 0, 1⟩ : Job).orderId = some 1 ∧
      (findOrder withdrawnHandoffState 1).map (fun oo => oo.status) =
        some OrderStatus.WITHDRAWN ∧
      (findOrder (stateOf (DroneService.reserveJob 0 withdrawnHandoffState)) 1).map
          (fun oo => (oo.status, oo.assignedDroneId)) =
        some (OrderStatus.ASSIGNED, some 0) := by
  refine ⟨rfl, rfl, by decide, ?_⟩
  exact c10_reserve_unconditional withdrawnHandoffState 0 1
    ⟨3, JobType.HANDOFF, some 1, 5, 6, 3, 4, some 2, JobStatus.RESERVED, some 0, 1⟩
    (stateOf (DroneService.reserveJob 0 withdrawnHandoffState))
    ⟨1, 1, 2, 3, 4, OrderStatus.WITHDRAWN, 7, none, some 5, some 6, none, 0⟩
    rfl rfl rfl

end DroneDelivery
